import Mathlib

/-!
Verification of the cross-source reconciliation engine of the
uol-simple-api-futebol package, over a shallow embedding of its
TypeScript source (src/index.ts) into Lean.

JavaScript strings are modelled as `List Char` (UTF-16 code units; every
character in play lies in the basic multilingual plane, where one code
unit is one character).  JavaScript numbers that can be NaN are modelled
as `Option Int` with `none` for NaN.  The orchestrator `getJogos` is
modelled as a pure state-passing function: the network fetches become
`Except`-valued parameters and the on-disk JSON cache becomes an
association list threaded through the run.
-/

namespace UolApi

/-- One character of the JavaScript `\w` regular-expression class:
ASCII letters, digits and underscore. -/
def isWordChar (c : Char) : Bool :=
  decide (('a' ≤ c ∧ c ≤ 'z') ∨ ('A' ≤ c ∧ c ≤ 'Z') ∨ ('0' ≤ c ∧ c ≤ '9') ∨ c = '_')

/-- An ASCII uppercase letter, the `[A-Z]` regular-expression class. -/
def isUpperAZ (c : Char) : Bool :=
  decide ('A' ≤ c ∧ c ≤ 'Z')

/-- An ASCII digit, the `\d` regular-expression class. -/
def isDigitCh (c : Char) : Bool :=
  decide ('0' ≤ c ∧ c ≤ '9')

/-- JavaScript whitespace (the `\s` class and the characters removed by
`String.prototype.trim`), restricted to the whitespace characters that can
occur in the scraped data: space, tab, newline, vertical tab, form feed,
carriage return and no-break space. -/
def jsWs (c : Char) : Bool :=
  c == ' ' || c == '\t' || c == '\n' || c == '\r' ||
  c == Char.ofNat 11 || c == Char.ofNat 12 || c == Char.ofNat 160

/-- `String.prototype.toLowerCase` on one UTF-16 code unit, for ASCII and
Latin-1 letters (the alphabets occurring in the data). -/
def jsToLower (c : Char) : Char :=
  if 'A' ≤ c ∧ c ≤ 'Z' then Char.ofNat (c.toNat + 32)
  else if 'À' ≤ c ∧ c ≤ 'Þ' ∧ c ≠ '×' then Char.ofNat (c.toNat + 32)
  else if c = 'Ÿ' then 'ÿ'
  else c

/-- `String.prototype.toUpperCase` on one UTF-16 code unit, for ASCII and
Latin-1 letters.  (The German sharp s, which uppercases to the two-letter
string SS, does not occur in the data and is left unchanged.) -/
def jsToUpper (c : Char) : Char :=
  if 'a' ≤ c ∧ c ≤ 'z' then Char.ofNat (c.toNat - 32)
  else if 'à' ≤ c ∧ c ≤ 'þ' ∧ c ≠ '÷' then Char.ofNat (c.toNat - 32)
  else if c = 'ÿ' then 'Ÿ'
  else c

/-- Lower-case a whole string. -/
def toLowerS (s : List Char) : List Char := s.map jsToLower

/-- Upper-case a whole string. -/
def toUpperS (s : List Char) : List Char := s.map jsToUpper

/-- One step of `c.normalize("NFD").replace(/[̀-ͯ]/g, "")`:
decompose a character and drop the combining diacritical marks, for the
Latin letters occurring in the data (other characters have no
decomposition and are returned unchanged; standalone combining marks are
dropped). -/
def charNFD (c : Char) : List Char :=
  if 0x300 ≤ c.toNat ∧ c.toNat ≤ 0x36F then []
  else
    match c with
    | 'á' | 'à' | 'â' | 'ã' | 'ä' | 'å' => ['a']
    | 'Á' | 'À' | 'Â' | 'Ã' | 'Ä' | 'Å' => ['A']
    | 'é' | 'è' | 'ê' | 'ë' => ['e']
    | 'É' | 'È' | 'Ê' | 'Ë' => ['E']
    | 'í' | 'ì' | 'î' | 'ï' => ['i']
    | 'Í' | 'Ì' | 'Î' | 'Ï' => ['I']
    | 'ó' | 'ò' | 'ô' | 'õ' | 'ö' => ['o']
    | 'Ó' | 'Ò' | 'Ô' | 'Õ' | 'Ö' => ['O']
    | 'ú' | 'ù' | 'û' | 'ü' => ['u']
    | 'Ú' | 'Ù' | 'Û' | 'Ü' => ['U']
    | 'ç' => ['c']
    | 'Ç' => ['C']
    | 'ñ' => ['n']
    | 'Ñ' => ['N']
    | 'ý' | 'ÿ' => ['y']
    | 'Ý' | 'Ÿ' => ['Y']
    | _ => [c]

/-- `removeAcentos` from the source: NFD-normalize the string and strip
all combining diacritical marks. -/
def removeAcentos (s : List Char) : List Char := s.flatMap charNFD

/-- `hay.includes(needle)` of JavaScript: substring containment. -/
def containsSub (needle hay : List Char) : Bool :=
  if needle.isPrefixOf hay then true
  else
    match hay with
    | [] => false
    | _ :: t => containsSub needle t

/-- `s.replace(needle, repl)` of JavaScript with a string pattern:
replace the first occurrence only; a string without the pattern is
returned unchanged.  (Only used with non-empty patterns.) -/
def replaceFirst (needle repl s : List Char) : List Char :=
  match s with
  | [] => []
  | c :: rest =>
    if needle.isPrefixOf (c :: rest) then repl ++ (c :: rest).drop needle.length
    else c :: replaceFirst needle repl rest

/-- Number of positions of `s` at which `needle` occurs.  (Only used
with patterns that cannot overlap themselves, where this is the number
of occurrences.) -/
def countSub (needle s : List Char) : Nat :=
  match s with
  | [] => 0
  | _ :: rest =>
    (if needle.isPrefixOf s then 1 else 0) + countSub needle rest

/-- `String.prototype.trim`: drop leading and trailing whitespace. -/
def jsTrim (s : List Char) : List Char :=
  ((s.dropWhile jsWs).reverse.dropWhile jsWs).reverse

/-- The worker of `dedupFirst`: keep the elements not yet seen. -/
def dedupFirstAux {α : Type} [DecidableEq α] (seen : List α) : List α → List α
  | [] => []
  | a :: l => if a ∈ seen then dedupFirstAux seen l else a :: dedupFirstAux (a :: seen) l

/-- `[...new Set(l)]` of JavaScript: de-duplicate keeping the first
occurrence of each element, preserving order. -/
def dedupFirst {α : Type} [DecidableEq α] (l : List α) : List α :=
  dedupFirstAux [] l

/-- Decimal value of a digit string. -/
def digitsVal (ds : List Char) : Nat :=
  ds.foldl (fun a c => a * 10 + (c.toNat - 48)) 0

/-- Leading-digit parse after the sign: `none` models NaN. -/
def parseIntDigits (t : List Char) : Option Int :=
  let ds := t.takeWhile isDigitCh
  if ds = [] then none else some (digitsVal ds : Int)

/-- `parseInt(s)` of JavaScript in base 10: skip whitespace, optional
sign, then the longest digit run; no digits give NaN (`none`).  Trailing
garbage is ignored. -/
def jsParseInt (s : List Char) : Option Int :=
  let t := s.dropWhile jsWs
  if t.head? = some '-' then (parseIntDigits t.tail).map (fun n => -n)
  else if t.head? = some '+' then parseIntDigits t.tail
  else parseIntDigits t

/-- `Number(s)` of JavaScript on the integer-shaped strings produced by
splitting a date string: empty (after trimming) is 0, an optionally
signed digit string is its value, anything else is NaN (`none`). -/
def jsNumber (s : List Char) : Option Int :=
  let t := jsTrim s
  if t = [] then some 0
  else if t.head? = some '-' then
    if t.tail ≠ [] ∧ t.tail.all isDigitCh then some (-(digitsVal t.tail : Int)) else none
  else if t.head? = some '+' then
    if t.tail ≠ [] ∧ t.tail.all isDigitCh then some (digitsVal t.tail : Int) else none
  else if t.all isDigitCh then some (digitsVal t : Int) else none

/-- `s.split(sep)` of JavaScript with a one-character separator: split
into (possibly empty) groups between separator occurrences. -/
def jsSplit (sep : Char) (s : List Char) : List (List Char) :=
  match s with
  | [] => [[]]
  | c :: rest =>
    if c = sep then [] :: jsSplit sep rest
    else
      match jsSplit sep rest with
      | [] => [[c]]
      | g :: gs => (c :: g) :: gs

/-- Fuel-indexed worker of `natDigits` (the fuel only serves structural
termination; `n + 1` units always suffice). -/
def natDigitsAux : Nat → Nat → List Char
  | 0, _ => []
  | fuel + 1, n =>
    if n < 10 then [Char.ofNat (48 + n)]
    else natDigitsAux fuel (n / 10) ++ [Char.ofNat (48 + n % 10)]

/-- Decimal rendering of a natural number (JavaScript `String(n)`). -/
def natDigits (n : Nat) : List Char := natDigitsAux (n + 1) n

/-- `String(n).padStart(2, "0")`. -/
def pad2 (n : Nat) : List Char :=
  let s := natDigits n
  if s.length < 2 then '0' :: s else s

/-- The argument tuple of a JavaScript `new Date(year, month0, day,
hours, minutes)` call (month0 is the zero-based month argument); `none`
models a NaN argument. -/
structure JSDate where
  year : Option Int
  month0 : Option Int
  day : Option Int
  hours : Option Int
  minutes : Option Int
deriving DecidableEq

/-- Matching of the regular expression `/^(\d{1,2})h(\d{1,2})?$/i`
against a string: on success, the numeric value of the hour group and
the optional minutes group. -/
def horaRegexMatch (s : List Char) : Option (Nat × Option Nat) :=
  let ds := s.takeWhile isDigitCh
  if 1 ≤ ds.length ∧ ds.length ≤ 2 then
    match s.drop ds.length with
    | c :: rest =>
      if (c = 'h' ∨ c = 'H') ∧ rest.all isDigitCh ∧ rest.length ≤ 2 then
        some (digitsVal ds, if rest.length = 0 then none else some (digitsVal rest))
      else none
    | [] => none
  else none

/-- `parseDataHoraBR` from the source: split the date string on `-` into
day, month, year (via `Number`), match the hour string against
`/^(\d{1,2})h(\d{1,2})?$/i` (throwing on failure, modelled as `Except.error`),
and build `new Date(ano, mes - 1, dia, horas, minutos)` with minutes
defaulting to 0. -/
def parseDataHoraBR (dataStr horaStr : List Char) : Except Unit JSDate :=
  let parts := (jsSplit '-' dataStr).map jsNumber
  let dia := parts.getD 0 none
  let mes := parts.getD 1 none
  let ano := parts.getD 2 none
  match horaRegexMatch horaStr with
  | none => .error ()
  | some (horas, minutos) =>
    .ok { year := ano, month0 := mes.map (fun m => m - 1), day := dia,
          hours := some (horas : Int), minutes := some ((minutos.getD 0 : Nat) : Int) }

/-- The `Match` record shape of the source (src/types/api). -/
structure Match where
  campeonato : List Char
  estadio : List Char
  hora : List Char
  times : List (List Char)
  nomeTimes : List (List Char)
  canais : List (List Char)
  escudos : List (List Char)
  date : JSDate
deriving DecidableEq

/-- The chain of literal first-occurrence substitutions at the head of
`normalizeTimeName` in the source (alias table, in source order). -/
def aliasSubstitutions (nome : List Char) : List Char :=
  let s := replaceFirst " W".data " (F)".data nome
  let s := replaceFirst "Paris Saint Germain".data "PSG".data s
  let s := replaceFirst "Slavia Praha VFL".data "Slavia Praha".data s
  let s := replaceFirst "Slavia Praha Vfl".data "Slavia Praha".data s
  let s := replaceFirst "Galatasaray VFL".data "Galatasaray".data s
  let s := replaceFirst "Galatasaray Vfl".data "Galatasaray".data s
  let s := replaceFirst "Birmingham VFL".data "Galatasaray".data s
  let s := replaceFirst "Birmingham Vfl".data "Birmingham".data s
  let s := replaceFirst " U20".data " Sub-20".data s
  let s := replaceFirst "América Mineiro".data "América-MG".data s
  s

/-- `normalizeTimeName` from the source: the alias substitutions, then a
character map that keeps dashes and underscores and strips diacritics
from every other character. -/
def normalizeTimeName (nome : List Char) : List Char :=
  (aliasSubstitutions nome).flatMap
    (fun c => if c = '-' ∨ c = '_' ∨ c = '–' ∨ c = '—' then [c] else charNFD c)

/-- All matches of the global regular expression `/\b([A-Z]{2})\b/g`:
left-to-right scan for two uppercase letters flanked by word boundaries;
`prev` is the character just before the remaining input (`none` at the
start of the string). -/
def estadosScan : Option Char → List Char → List (List Char)
  | _, [] => []
  | _, [_] => []
  | prev, a :: b :: t =>
    if isUpperAZ a && isUpperAZ b
        && (match prev with | none => true | some p => !isWordChar p)
        && (match t with | [] => true | c :: _ => !isWordChar c) then
      [a, b] :: estadosScan (some b) t
    else
      estadosScan (some a) (b :: t)

/-- `processedChannel.match(/\b([A-Z]{2})\b/g)` (the list of two-letter
state codes in a channel entry); the empty list models a null match. -/
def estados (s : List Char) : List (List Char) := estadosScan none s

/-- The per-entry body of `prepareChannelName` applied to an already
trimmed entry `t`: the Globo one-to-many expansion, then the ordered
rewrite rules, then pass-through.  (The source's nested Globo `if`s
fall through to the later rules when no state code is found, which is
what the first condition's last conjunct captures.) -/
def processEntry (t : List Char) : List (List Char) :=
  let U := t.map jsToUpper
  if containsSub "GLOBO".data U ∧ containsSub ",".data t ∧ estados t ≠ [] then
    (dedupFirst (estados t)).map (fun e => "Globo ".data ++ e)
  else if U = "PREMIERE FC".data then ["Premiere".data]
  else if U = "CAZÉ TV".data then ["CazéTV".data]
  else if U = "RECORD".data then ["Record".data]
  else if containsSub "DISNEY+ PREMIUM".data U then ["Disney+".data]
  else if containsSub "DISNEY+".data U then ["Disney+".data]
  else if containsSub "PREMIERE".data U then [replaceFirst "PREMIERE".data "Premiere".data t]
  else if containsSub "SPORTV".data U then ["SporTV".data]
  else if U = "GLOBO".data then ["Globo".data]
  else [t]

/-- One `forEach` step of `prepareChannelName`: falsy (empty) entries are
skipped, other entries are trimmed and processed. -/
def processChannel (channel : List Char) : List (List Char) :=
  if channel = [] then [] else processEntry (jsTrim channel)

/-- `prepareChannelName` from the source: process every entry and
de-duplicate the accumulated outputs (`[...new Set(processed)]`). -/
def prepareChannelName (channels : List (List Char)) : List (List Char) :=
  dedupFirst (channels.flatMap processChannel)

/-- The `normalizarHora` arrow function of `buscarCanaisParaJogo`:
`hora.replace(/\s+/g, '').toLowerCase()`. -/
def normalizarHora (hora : List Char) : List Char :=
  (hora.filter (fun c => !jsWs c)).map jsToLower

/-- The `matchHora` expression of `buscarCanaisParaJogo`: the normalized
time strings are identical, or the numbers obtained by `parseInt` after
deleting the first `h` differ by at most 1 (false when either side
parses to NaN). -/
def matchHora (horaCand horaFix : List Char) : Bool :=
  let hu := normalizarHora horaCand
  let hn := normalizarHora horaFix
  decide (hu = hn) ||
    match jsParseInt (replaceFirst "h".data [] hu), jsParseInt (replaceFirst "h".data [] hn) with
    | some a, some b => decide ((a - b).natAbs ≤ 1)
    | _, _ => false

/-- The per-record test of the UOL passes of `buscarCanaisParaJogo`:
skip records without two team names or with an empty name; otherwise
lower-case and de-accent the record's names (note: no alias
substitutions on this side), test containment in either direction per
side, and test the time. -/
def uolRecordMatch (homeN awayN horaJogo : List Char) (rec : Match) : Bool :=
  if rec.nomeTimes.length < 2 then false
  else
    let homeStr := toLowerS (rec.nomeTimes.getD 0 [])
    let awayStr := toLowerS (rec.nomeTimes.getD 1 [])
    if homeStr = [] ∨ awayStr = [] then false
    else
      let homeSide := removeAcentos homeStr
      let awaySide := removeAcentos awayStr
      (containsSub homeN homeSide || containsSub homeSide homeN) &&
      (containsSub awayN awaySide || containsSub awaySide awayN) &&
      matchHora rec.hora horaJogo

/-- The per-record test of the Futebol na TV pass of
`buscarCanaisParaJogo`: as the UOL test, but the record's names are
passed through `normalizeTimeName` before lower-casing. -/
def ftvRecordMatch (homeN awayN horaJogo : List Char) (rec : Match) : Bool :=
  if rec.nomeTimes.length < 2 then false
  else
    let homeStr := toLowerS (normalizeTimeName (rec.nomeTimes.getD 0 []))
    let awayStr := toLowerS (normalizeTimeName (rec.nomeTimes.getD 1 []))
    if homeStr = [] ∨ awayStr = [] then false
    else
      let homeSide := removeAcentos homeStr
      let awaySide := removeAcentos awayStr
      (containsSub homeN homeSide || containsSub homeSide homeN) &&
      (containsSub awayN awaySide || containsSub awaySide awayN) &&
      matchHora rec.hora horaJogo

/-- `Set.prototype.add`: append if absent, preserving insertion order. -/
def setAdd (s : List (List Char)) (a : List Char) : List (List Char) :=
  if a ∈ s then s else s ++ [a]

/-- Add every element of a list to the accumulating set. -/
def addAll (s : List (List Char)) (l : List (List Char)) : List (List Char) :=
  l.foldl setAdd s

/-- `buscarCanaisParaJogo` from the source: normalize the fixture's
names once, then scan the UOL pool, the Futebol na TV pool, and (as the
source does, redundantly) the UOL pool a second time, accumulating the
normalized channels of every matching record into an insertion-ordered
set. -/
def buscarCanaisParaJogo (jogo : Match) (jogosUOL jogosFutebolNaTV : List Match) :
    List (List Char) :=
  let homeN := toLowerS (normalizeTimeName (jogo.nomeTimes.getD 0 []))
  let awayN := toLowerS (normalizeTimeName (jogo.nomeTimes.getD 1 []))
  let s1 := jogosUOL.foldl
    (fun s rec => if uolRecordMatch homeN awayN jogo.hora rec
                  then addAll s (prepareChannelName rec.canais) else s) []
  let s2 := jogosFutebolNaTV.foldl
    (fun s rec => if ftvRecordMatch homeN awayN jogo.hora rec
                  then addAll s (prepareChannelName rec.canais) else s) s1
  let s3 := jogosUOL.foldl
    (fun s rec => if uolRecordMatch homeN awayN jogo.hora rec
                  then addAll s (prepareChannelName rec.canais) else s) s2
  s3

/-- The test `/^Premiere\s+\d+$/i.test(c)` of `getJogos`: the brand name
followed by whitespace and a number, case-insensitively. -/
def isPremiereComNumero (c : List Char) : Bool :=
  let l := toLowerS c
  "premiere".data.isPrefixOf l &&
    (let rest := l.drop 8
     decide (rest.takeWhile jsWs ≠ []) &&
     decide (rest.dropWhile jsWs ≠ []) &&
     (rest.dropWhile jsWs).all isDigitCh)

/-- The test `/^Premiere\s*$/i.test(c)` of `getJogos`: the bare brand
name with nothing but optional whitespace after it, case-insensitively. -/
def isPremiereSemNumero (c : List Char) : Bool :=
  let l := toLowerS c
  "premiere".data.isPrefixOf l && (l.drop 8).all jsWs

/-- The channel-precedence post-filter of `getJogos`: when some entry is
a numbered Premiere feed, drop the bare Premiere entries; otherwise keep
the list unchanged. -/
def filtrarPremiere (canais : List (List Char)) : List (List Char) :=
  if canais.any isPremiereComNumero then canais.filter (fun c => !isPremiereSemNumero c)
  else canais

/-- The local-time decomposition of a fixture's kickoff instant, i.e.
the values of getFullYear, getMonth (zero-based), getDate, getHours and
getMinutes on the `Date` parsed from the record's ISO date string.  The
ISO-string-to-components step is JavaScript `Date` library behaviour;
the components are taken as the record's input data. -/
structure DateParts where
  year : Nat
  month0 : Nat
  day : Nat
  hours : Nat
  minutes : Nat
deriving DecidableEq

/-- A team object of an authoritative fixture record (`name`, `logo`;
`none` models an absent field). -/
structure TeamInfo where
  name : Option (List Char)
  logo : Option (List Char)
deriving DecidableEq

/-- The `teams` object of an authoritative fixture record. -/
structure TeamsInfo where
  home : Option TeamInfo
  away : Option TeamInfo
deriving DecidableEq

/-- The `league` object of an authoritative fixture record. -/
structure LeagueInfo where
  id : Option Int
  name : Option (List Char)
  country : Option (List Char)
deriving DecidableEq

/-- The `fixture` object of an authoritative fixture record: kickoff
date (already decomposed into local components) and venue name. -/
structure FixtureInfo where
  date : Option DateParts
  venueName : Option (List Char)
deriving DecidableEq

/-- One authoritative fixture record as consumed by the filters and the
converter (`fixtureData.fixture || {}` etc. become `Option.getD`). -/
structure FixtureData where
  fixture : Option FixtureInfo
  teams : Option TeamsInfo
  league : Option LeagueInfo
deriving DecidableEq

/-- JavaScript truthiness of an optional string: false for an absent
field and for the empty string. -/
def jsStrTruthy : Option (List Char) → Bool
  | some s => decide (s ≠ [])
  | none => false

/-- `o || d` of JavaScript on an optional string: the fallback replaces
both an absent field and an empty string. -/
def jsOrStr (o : Option (List Char)) (d : List Char) : List Char :=
  match o with
  | some s => if s = [] then d else s
  | none => d

/-- The `dd-mm-yyyy` rendering of local date components produced inside
`aconteceNaData` and `converterAPIParaMatch` (two-digit padded day and
month, unpadded year). -/
def formatDataBR (p : DateParts) : List Char :=
  pad2 p.day ++ "-".data ++ pad2 (p.month0 + 1) ++ "-".data ++ natDigits p.year

/-- The `HHhMM` rendering of local time components produced inside
`converterAPIParaMatch` (both parts two-digit padded). -/
def horaBRStr (p : DateParts) : List Char :=
  pad2 p.hours ++ "h".data ++ pad2 p.minutes

/-- `aconteceNaData` from the source: a record without a kickoff date
string is rejected; otherwise its local date components, rendered as
`dd-mm-yyyy`, must equal the requested date string. -/
def aconteceNaData (fx : FixtureData) (diaFormatado : List Char) : Bool :=
  match (fx.fixture.getD ⟨none, none⟩).date with
  | none => false
  | some p => decide (formatDataBR p = diaFormatado)

/-- `deveIncluirJogo` from the source: league country Brazil, or one of
the fixed allow-list of league identifiers, in source order. -/
def deveIncluirJogo (fx : FixtureData) : Bool :=
  let league := fx.league.getD ⟨none, none, none⟩
  decide (league.country = some "Brazil".data) ||
  decide (league.id = some 71) ||
  decide (league.id = some 2) ||
  decide (league.id = some 72) ||
  decide (league.id = some 525) ||
  decide (league.id = some 140) ||
  decide (league.id = some 61) ||
  decide (league.id = some 40) ||
  decide (league.id = some 408)

/-- The abbreviation derivation of `converterAPIParaMatch`:
`name.replace(/\s+/g, '').substring(0, 3).toUpperCase()` — whitespace
removed, first three UTF-16 code units, upper-cased (diacritics are not
touched). -/
def sigla (nome : List Char) : List Char :=
  ((nome.filter (fun c => !jsWs c)).take 3).map jsToUpper

/-- `converterAPIParaMatch` from the source: reject records without two
truthy team names or without a kickoff date; derive the `HHhMM` hour
string and `dd-mm-yyyy` date string from the local components; fill the
`Match` record, with the channel list empty and the resolved date built
by `parseDataHoraBR` (whose throw, impossible here, would be caught and
turned into null). -/
def converterAPIParaMatch (fx : FixtureData) (diaFormatado : List Char) : Option Match :=
  let fixture := fx.fixture.getD ⟨none, none⟩
  let teams := fx.teams.getD ⟨none, none⟩
  let league := fx.league.getD ⟨none, none, none⟩
  let homeName := teams.home.bind (fun t => t.name)
  let awayName := teams.away.bind (fun t => t.name)
  if ¬ (jsStrTruthy homeName ∧ jsStrTruthy awayName) then none
  else
    match fixture.date with
    | none => none
    | some p =>
      let hNome := homeName.getD []
      let aNome := awayName.getD []
      let horaBR := horaBRStr p
      let dataBRFormatada := formatDataBR p
      match parseDataHoraBR dataBRFormatada horaBR with
      | .error _ => none
      | .ok d =>
        some { campeonato := jsOrStr league.name "Campeonato não informado".data
               estadio := jsOrStr (fx.fixture.bind (fun f => f.venueName)) "Não informado".data
               hora := horaBR
               times := [sigla hNome, sigla aNome]
               nomeTimes := [replaceFirst " W".data " (F)".data hNome,
                             replaceFirst " W".data " (F)".data aNome]
               canais := []
               escudos := [jsOrStr (teams.home.bind (fun t => t.logo)) [],
                           jsOrStr (teams.away.bind (fun t => t.logo)) []]
               date := d }

/-- Days between 1970-01-01 and the first day of month `m` (1-based) of
year `y` in the proleptic Gregorian calendar (the civil-from-days
algorithm used to model the JavaScript `MakeDay` operation). -/
def daysFromCivil (y m : Int) : Int :=
  let y' := if m ≤ 2 then y - 1 else y
  let era := Int.fdiv y' 400
  let yoe := y' - era * 400
  let mp := Int.emod (m + 9) 12
  let doy := Int.fdiv (153 * mp + 2) 5
  let doe := yoe * 365 + Int.fdiv yoe 4 - Int.fdiv yoe 100 + doy
  era * 146097 + doe - 719468

/-- The JavaScript `MakeDay(year, month, date)` operation: month
overflow carries into the year, day overflow carries linearly. -/
def makeDay (y m0 d : Int) : Int :=
  let yr := y + Int.fdiv m0 12
  let mn := Int.emod m0 12
  daysFromCivil yr (mn + 1) + (d - 1)

/-- `new Date(args).getTime()` up to the constant local-timezone offset
(which the sort comparator cancels): milliseconds from the epoch of the
constructed calendar instant; `none` models the NaN time value of an
invalid date. -/
def dateMillis (dt : JSDate) : Option Int :=
  match dt.year, dt.month0, dt.day, dt.hours, dt.minutes with
  | some y, some m, some d, some h, some mi =>
    some (makeDay y m d * 86400000 + h * 3600000 + mi * 60000)
  | _, _, _, _, _ => none

/-- `ordenarPorData` from the source: stable sort by the time value of
the resolved kickoff date (`Array.prototype.sort` with the getTime
difference comparator; modern engines sort stably). -/
def ordenarPorData (jogos : List Match) : List Match :=
  jogos.mergeSort (fun a b =>
    match dateMillis a.date, dateMillis b.date with
    | some x, some y => decide (x ≤ y)
    | _, _ => true)

/-- The per-fixture loop of step 5 of `getJogos`: convert each surviving
fixture, attach the reconciled channels after the Premiere post-filter,
and keep the fixture only when the channel list is non-empty. -/
def montarJogos (fixturesFiltrados : List FixtureData) (diaFormatado : List Char)
    (jogosUOL jogosFutebolNaTV : List Match) : List Match :=
  fixturesFiltrados.filterMap (fun fixture =>
    match converterAPIParaMatch fixture diaFormatado with
    | none => none
    | some jogo =>
      let canais := buscarCanaisParaJogo jogo jogosUOL jogosFutebolNaTV
      let allCanais := filtrarPremiere canais
      if allCanais = [] then none else some { jogo with canais := allCanais })

/-- The on-disk cache of `getJogos`, modelled as an association list
from date keys to cached results. -/
abbrev Cache := List (List Char × List Match)

/-- Lookup of one date key in the cache mapping. -/
def cacheLookup (c : Cache) (k : List Char) : Option (List Match) :=
  match c with
  | [] => none
  | (k', v) :: rest => if k' = k then some v else cacheLookup rest k

/-- `cache[k] = v` followed by `salvarCache(cache)`: update one key of
the mapping, leaving every other key unchanged. -/
def cacheSet (c : Cache) (k : List Char) (v : List Match) : Cache :=
  match c with
  | [] => [(k, v)]
  | (k', v') :: rest => if k' = k then (k', v) :: rest else (k', v') :: cacheSet rest k v

/-- The regular expression `/^\d{2}-\d{2}-\d{4}$/` used to validate the
requested date string. -/
def isDdMmYyyy (s : List Char) : Bool :=
  match s with
  | [d1, d2, h1, m1, m2, h2, y1, y2, y3, y4] =>
    isDigitCh d1 && isDigitCh d2 && (h1 == '-') &&
    isDigitCh m1 && isDigitCh m2 && (h2 == '-') &&
    isDigitCh y1 && isDigitCh y2 && isDigitCh y3 && isDigitCh y4
  | _ => false

/-- The requested-date resolution at the head of `getJogos`: an absent
or malformed argument falls back to the current date (`hoje`). -/
def diaFormatadoOf (dia : Option (List Char)) (hoje : List Char) : List Char :=
  match dia with
  | none => hoje
  | some s => if isDdMmYyyy s then s else hoje

/-- The `try … catch` around each scraper fetch in `getJogos`: a failed
fetch is replaced by the empty pool. -/
def poolOf : Except Unit (List Match) → List Match
  | .ok l => l
  | .error _ => []

/-- `getJogos` from the source as a pure state-passing run: `hoje` is
the formatted current date, `cache` the loaded cache mapping,
`disableCache` the DISABLE_CACHE flag, and the three `Except` parameters
the outcomes of the authoritative-API fetch and of the two scraper
fetches.  Returns the result list and the cache mapping after the run
(unchanged when nothing was saved). -/
def getJogosRun (dia : Option (List Char)) (hoje : List Char) (cache : Cache)
    (disableCache : Bool) (fixturesRes : Except Unit (List FixtureData))
    (uolRes ftvRes : Except Unit (List Match)) : List Match × Cache :=
  let diaFormatado := diaFormatadoOf dia hoje
  match cacheLookup cache diaFormatado, disableCache with
  | some cached, false => (cached, cache)
  | _, _ =>
    match fixturesRes with
    | .error _ => ([], cache)
    | .ok fixtures =>
      if fixtures = [] then ([], cacheSet cache diaFormatado [])
      else
        let fixturesNaData := fixtures.filter (fun f => aconteceNaData f diaFormatado)
        let fixturesFiltrados := fixturesNaData.filter deveIncluirJogo
        if fixturesFiltrados = [] then ([], cacheSet cache diaFormatado [])
        else
          let jogosUOL := poolOf uolRes
          let jogosFutebolNaTV := poolOf ftvRes
          let jogos := montarJogos fixturesFiltrados diaFormatado jogosUOL jogosFutebolNaTV
          let jogosOrdenados := ordenarPorData jogos
          (jogosOrdenados, cacheSet cache diaFormatado jogosOrdenados)

/-- Modelled from the spec: the leading hour component of a time
string — the digit run at the front of the normalized string. -/
def claimLeadHours (s : List Char) : Option Nat :=
  let ds := (normalizarHora s).takeWhile isDigitCh
  if ds = [] then none else some (digitsVal ds)

/-- Modelled from the spec: the Team/Time Matcher's time comparison as
the claim states it — the whitespace-stripped lower-cased strings are
identical, or the absolute difference between the leading hour
components is at most 1. -/
def claimTimeMatch (a b : List Char) : Bool :=
  decide (normalizarHora a = normalizarHora b) ||
    match claimLeadHours a, claimLeadHours b with
    | some x, some y => decide (((x : Int) - (y : Int)).natAbs ≤ 1)
    | _, _ => false

/-- Modelled from the spec: the claim's single team-name normalization —
diacritics stripped, then the fixed alias-substitution table, then
lower-cased. -/
def claimNormalizeName (nome : List Char) : List Char :=
  toLowerS (aliasSubstitutions (removeAcentos nome))

/-- Modelled from the spec: the claim's abbreviation scheme — the first
three letters of the team's name with diacritics and spaces stripped,
upper-cased. -/
def claimSigla (nome : List Char) : List Char :=
  (((removeAcentos nome).filter (fun c => !jsWs c)).take 3).map jsToUpper

/-- Example authoritative record: Santos × Grêmio in Brazil, kicking off
2026-10-10 at 21:30 local time. -/
def fixtureSantosGremio : FixtureData :=
  { fixture := some { date := some { year := 2026, month0 := 9, day := 10,
                                     hours := 21, minutes := 30 },
                      venueName := some "Vila Belmiro".data }
    teams := some { home := some { name := some "Santos".data, logo := none }
                    away := some { name := some "Grêmio".data, logo := none } }
    league := some { id := some 71, name := some "Serie A".data,
                     country := some "Brazil".data } }

/-- Example scraped UOL record that matches the Santos × Grêmio fixture
by team names and time. -/
def recSantosGremio : Match :=
  { campeonato := [], estadio := [], hora := "21h30".data
    times := [], nomeTimes := ["Santos".data, "Gremio".data]
    canais := ["SPORTV".data], escudos := []
    date := ⟨none, none, none, none, none⟩ }

/-- The converted-and-reconciled fixture produced from
`fixtureSantosGremio` and `recSantosGremio`. -/
def jogoSantosGremio : Match :=
  { campeonato := "Serie A".data, estadio := "Vila Belmiro".data
    hora := "21h30".data, times := ["SAN".data, "GRÊ".data]
    nomeTimes := ["Santos".data, "Grêmio".data]
    canais := ["SporTV".data], escudos := [[], []]
    date := ⟨some 2026, some 9, some 10, some 21, some 30⟩ }

/-- Example canonical fixture whose home team is rendered with the full
name that the alias table rewrites to PSG. -/
def jogoPSG : Match :=
  { campeonato := [], estadio := [], hora := "21h00".data
    times := [], nomeTimes := ["Paris Saint Germain".data, "Santos".data]
    canais := [], escudos := []
    date := ⟨none, none, none, none, none⟩ }

/-- Example UOL broadcast record rendering the same fixture with the
same full team names. -/
def recPSGFull : Match :=
  { campeonato := [], estadio := [], hora := "21h00".data
    times := [], nomeTimes := ["Paris Saint Germain".data, "Santos".data]
    canais := ["SPORTV".data], escudos := []
    date := ⟨none, none, none, none, none⟩ }

/-- The same UOL broadcast record but rendering the home team by the
alias output `PSG`. -/
def recPSGAlias : Match :=
  { campeonato := [], estadio := [], hora := "21h00".data
    times := [], nomeTimes := ["PSG".data, "Santos".data]
    canais := ["SPORTV".data], escudos := []
    date := ⟨none, none, none, none, none⟩ }

/-! Helper lemmas. -/

theorem cacheLookup_cacheSet_self (c : Cache) (k : List Char) (v : List Match) :
    cacheLookup (cacheSet c k v) k = some v := by
  induction c with
  | nil => simp [cacheSet, cacheLookup]
  | cons p rest ih =>
    obtain ⟨k', v'⟩ := p
    by_cases h : k' = k
    · subst h; simp [cacheSet, cacheLookup]
    · simp [cacheSet, cacheLookup, h, ih]

theorem cacheLookup_cacheSet_ne (c : Cache) (k k' : List Char) (v : List Match)
    (h : k' ≠ k) : cacheLookup (cacheSet c k v) k' = cacheLookup c k' := by
  induction c with
  | nil =>
    simp only [cacheSet, cacheLookup]
    rw [if_neg (fun hh => h hh.symm)]
  | cons p rest ih =>
    obtain ⟨k₀, v₀⟩ := p
    by_cases h0 : k₀ = k
    · subst h0
      have hne : k₀ ≠ k' := fun hh => h hh.symm
      simp [cacheSet, cacheLookup, hne]
    · by_cases h1 : k₀ = k'
      · subst h1; simp [cacheSet, cacheLookup, h0]
      · simp [cacheSet, cacheLookup, h0, h1, ih]

theorem digit_ne_dash {c : Char} (h : isDigitCh c = true) : c ≠ '-' := by
  intro hh; subst hh; exact absurd h (by decide)

theorem digit_ne_plus {c : Char} (h : isDigitCh c = true) : c ≠ '+' := by
  intro hh; subst hh; exact absurd h (by decide)

theorem digit_not_ws {c : Char} (h : isDigitCh c = true) : jsWs c = false := by
  by_contra hne
  have hw : jsWs c = true := by revert hne; cases jsWs c <;> simp
  unfold jsWs at hw
  simp only [Bool.or_eq_true, beq_iff_eq] at hw
  rcases hw with ((((((hh | hh) | hh) | hh) | hh) | hh) | hh) <;> subst hh <;>
    exact absurd h (by decide)

/-! ## C2 — the Premiere channel-precedence post-filter -/

/-- C2: if the accumulated channel list contains an entry of the form
Premiere-whitespace-number, the post-filter equals the filter that
drops exactly the bare Premiere entries: every bare entry is removed
and every other entry (numbered Premiere feeds and unrelated channels)
is kept, in order. -/
theorem c2_premiere_postfilter (canais : List (List Char))
    (h : canais.any isPremiereComNumero = true) :
    filtrarPremiere canais = canais.filter (fun c => !isPremiereSemNumero c) ∧
    (∀ c ∈ canais, isPremiereSemNumero c = true → c ∉ filtrarPremiere canais) ∧
    (∀ c ∈ canais, isPremiereSemNumero c = false → c ∈ filtrarPremiere canais) := by
  have he : filtrarPremiere canais = canais.filter (fun c => !isPremiereSemNumero c) := by
    simp [filtrarPremiere, h]
  refine ⟨he, ?_, ?_⟩
  · intro c _ hbare hmem
    rw [he] at hmem
    simp only [List.mem_filter, hbare] at hmem
    simp at hmem
  · intro c hc hbare
    rw [he]
    simp [List.mem_filter, hc, hbare]

/-- Witness for C2 at the spec's example set. -/
theorem c2_premiere_postfilter_witness :
    (["Premiere".data, "Premiere 3".data, "SporTV".data].any isPremiereComNumero = true) ∧
    filtrarPremiere ["Premiere".data, "Premiere 3".data, "SporTV".data] =
      ["Premiere 3".data, "SporTV".data] :=
  ⟨by decide, (c2_premiere_postfilter _ (by decide)).1.trans (by decide)⟩

/-! ## C4 — parseDataHoraBR -/

theorem jsSplit_ddmmyyyy (d1 d2 m1 m2 y1 y2 y3 y4 : Char)
    (hd1 : isDigitCh d1 = true) (hd2 : isDigitCh d2 = true)
    (hm1 : isDigitCh m1 = true) (hm2 : isDigitCh m2 = true)
    (hy1 : isDigitCh y1 = true) (hy2 : isDigitCh y2 = true)
    (hy3 : isDigitCh y3 = true) (hy4 : isDigitCh y4 = true) :
    jsSplit '-' [d1, d2, '-', m1, m2, '-', y1, y2, y3, y4] =
      [[d1, d2], [m1, m2], [y1, y2, y3, y4]] := by
  simp [jsSplit, digit_ne_dash hd1, digit_ne_dash hd2, digit_ne_dash hm1,
        digit_ne_dash hm2, digit_ne_dash hy1, digit_ne_dash hy2,
        digit_ne_dash hy3, digit_ne_dash hy4]

theorem dropWhile_eq_self_of_head {p : Char → Bool} {l : List Char}
    (h : ∀ c : Char, l.head? = some c → p c = false) : l.dropWhile p = l := by
  cases l with
  | nil => rfl
  | cons a as => rw [List.dropWhile_cons_of_neg (by simp [h a rfl])]

theorem jsTrim_eq_self {l : List Char}
    (h1 : ∀ c, l.head? = some c → jsWs c = false)
    (h2 : ∀ c, l.getLast? = some c → jsWs c = false) : jsTrim l = l := by
  unfold jsTrim
  rw [dropWhile_eq_self_of_head h1, dropWhile_eq_self_of_head ?_, List.reverse_reverse]
  intro c hc
  apply h2
  rwa [List.head?_reverse] at hc

theorem jsNumber_digits (ds : List Char) (hne : ds ≠ [])
    (hall : ds.all isDigitCh = true) :
    jsNumber ds = some (digitsVal ds : Int) := by
  obtain ⟨c, rest, rfl⟩ : ∃ c rest, ds = c :: rest := by
    cases ds with
    | nil => exact absurd rfl hne
    | cons c rest => exact ⟨c, rest, rfl⟩
  have hc : isDigitCh c = true := by
    simp only [List.all_cons, Bool.and_eq_true] at hall
    exact hall.1
  have htrim : jsTrim (c :: rest) = c :: rest := by
    apply jsTrim_eq_self
    · intro x hx
      simp only [List.head?_cons, Option.some.injEq] at hx
      subst hx
      exact digit_not_ws hc
    · intro x hx
      have hmem : x ∈ c :: rest := List.mem_of_mem_getLast? hx
      exact digit_not_ws (List.all_eq_true.mp hall _ hmem)
  unfold jsNumber
  simp only [htrim]
  rw [if_neg (by simp)]
  rw [if_neg (by simp [digit_ne_dash hc]), if_neg (by simp [digit_ne_plus hc]),
      if_pos hall]

/-- C4: on a well-formed `dd-mm-yyyy` date string, `parseDataHoraBR`
raises its parse error exactly when the hour string fails the
`/^(\d{1,2})h(\d{1,2})?$/i` shape, and on every hour string matching the
shape it returns, without error, the calendar date-time constructed from
(year, zero-based month, day, hours, minutes defaulting to 0). -/
theorem c4_parseDataHoraBR (d1 d2 m1 m2 y1 y2 y3 y4 : Char) (horaStr : List Char)
    (hd1 : isDigitCh d1 = true) (hd2 : isDigitCh d2 = true)
    (hm1 : isDigitCh m1 = true) (hm2 : isDigitCh m2 = true)
    (hy1 : isDigitCh y1 = true) (hy2 : isDigitCh y2 = true)
    (hy3 : isDigitCh y3 = true) (hy4 : isDigitCh y4 = true) :
    (parseDataHoraBR [d1, d2, '-', m1, m2, '-', y1, y2, y3, y4] horaStr = .error () ↔
      horaRegexMatch horaStr = none) ∧
    (∀ hh mm, horaRegexMatch horaStr = some (hh, mm) →
      parseDataHoraBR [d1, d2, '-', m1, m2, '-', y1, y2, y3, y4] horaStr =
        .ok { year := some (digitsVal [y1, y2, y3, y4] : Int)
              month0 := some ((digitsVal [m1, m2] : Int) - 1)
              day := some (digitsVal [d1, d2] : Int)
              hours := some (hh : Int)
              minutes := some ((mm.getD 0 : Nat) : Int) }) := by
  have hsplit := jsSplit_ddmmyyyy d1 d2 m1 m2 y1 y2 y3 y4 hd1 hd2 hm1 hm2 hy1 hy2 hy3 hy4
  have hnd : jsNumber [d1, d2] = some (digitsVal [d1, d2] : Int) :=
    jsNumber_digits _ (by simp) (by simp [hd1, hd2])
  have hnm : jsNumber [m1, m2] = some (digitsVal [m1, m2] : Int) :=
    jsNumber_digits _ (by simp) (by simp [hm1, hm2])
  have hny : jsNumber [y1, y2, y3, y4] = some (digitsVal [y1, y2, y3, y4] : Int) :=
    jsNumber_digits _ (by simp) (by simp [hy1, hy2, hy3, hy4])
  unfold parseDataHoraBR
  rw [hsplit]
  simp only [List.map_cons, List.map_nil, hnd, hnm, hny]
  cases hr : horaRegexMatch horaStr with
  | none => simp
  | some pr =>
    obtain ⟨hh, mm⟩ := pr
    constructor
    · simp
    · intro hh' mm' hsome
      obtain ⟨rfl, rfl⟩ : hh = hh' ∧ mm = mm' := Prod.ext_iff.mp (Option.some.inj hsome)
      simp [List.getD]

/-- Witness for C4: a valid date with a valid and with a malformed hour
string. -/
theorem c4_parseDataHoraBR_witness :
    parseDataHoraBR "12-03-2026".data "21h30".data =
      .ok { year := some 2026, month0 := some 2, day := some 12,
            hours := some 21, minutes := some 30 } ∧
    parseDataHoraBR "12-03-2026".data "25x30".data = .error () := by
  have h := c4_parseDataHoraBR '1' '2' '0' '3' '2' '0' '2' '6' "21h30".data
    (by decide) (by decide) (by decide) (by decide) (by decide) (by decide)
    (by decide) (by decide)
  have h2 := c4_parseDataHoraBR '1' '2' '0' '3' '2' '0' '2' '6' "25x30".data
    (by decide) (by decide) (by decide) (by decide) (by decide) (by decide)
    (by decide) (by decide)
  constructor
  · exact (h.2 21 (some 30) (by decide)).trans (congrArg Except.ok (by decide))
  · exact h2.1.mpr (by decide)

/-! ## C5 — authoritative fetch failure aborts without caching -/

/-- C5: when no cached result short-circuits the run, a failure of the
authoritative fixtures fetch makes the run return the empty result and
leave the cache mapping exactly as it was loaded (nothing is written for
the requested date key, so the next call retries the fetch). -/
theorem c5_fetch_failure_aborts (dia : Option (List Char)) (hoje : List Char)
    (cache : Cache) (disableCache : Bool) (uolRes ftvRes : Except Unit (List Match))
    (h : cacheLookup cache (diaFormatadoOf dia hoje) = none ∨ disableCache = true) :
    getJogosRun dia hoje cache disableCache (.error ()) uolRes ftvRes = ([], cache) := by
  simp only [getJogosRun]
  rcases h with h | h
  · rw [h]
  · rw [h]
    cases cacheLookup cache (diaFormatadoOf dia hoje) <;> rfl

/-- Witness for C5 on a concrete empty cache. -/
theorem c5_fetch_failure_aborts_witness :
    getJogosRun (some "10-10-2026".data) "09-10-2026".data [] false
      (.error ()) (.ok []) (.ok []) = ([], []) :=
  c5_fetch_failure_aborts _ _ _ _ _ _ (Or.inl rfl)

/-! ## C10 — a run touches at most its own cache key -/

/-- C10: a run of the public entry point changes at most the cache entry
of its own derived date key — looking up any other key in the saved
mapping gives exactly what the loaded mapping gave. -/
theorem c10_cache_frame (dia : Option (List Char)) (hoje : List Char) (cache : Cache)
    (disableCache : Bool) (fixturesRes : Except Unit (List FixtureData))
    (uolRes ftvRes : Except Unit (List Match)) (k : List Char)
    (h : k ≠ diaFormatadoOf dia hoje) :
    cacheLookup (getJogosRun dia hoje cache disableCache fixturesRes uolRes ftvRes).2 k =
      cacheLookup cache k := by
  simp only [getJogosRun]
  cases hl : cacheLookup cache (diaFormatadoOf dia hoje) with
  | some cached =>
    cases disableCache with
    | false => rfl
    | true =>
      cases fixturesRes with
      | error e => rfl
      | ok fixtures =>
        by_cases hfe : fixtures = []
        · simp only [hfe, if_pos rfl]
          exact cacheLookup_cacheSet_ne _ _ _ _ h
        · simp only [if_neg hfe]
          split
          · exact cacheLookup_cacheSet_ne _ _ _ _ h
          · exact cacheLookup_cacheSet_ne _ _ _ _ h
  | none =>
    cases disableCache <;>
    · cases fixturesRes with
      | error e => rfl
      | ok fixtures =>
        by_cases hfe : fixtures = []
        · simp only [hfe, if_pos rfl]
          exact cacheLookup_cacheSet_ne _ _ _ _ h
        · simp only [if_neg hfe]
          split
          · exact cacheLookup_cacheSet_ne _ _ _ _ h
          · exact cacheLookup_cacheSet_ne _ _ _ _ h

/-- Witness for C10: a run for one date leaves the cached entry of a
different date key untouched. -/
theorem c10_cache_frame_witness :
    cacheLookup (getJogosRun (some "10-10-2026".data) "09-10-2026".data
        [("01-01-2020".data, [])] false (.ok []) (.ok []) (.ok [])).2 "01-01-2020".data =
      cacheLookup [("01-01-2020".data, [])] "01-01-2020".data :=
  c10_cache_frame _ _ _ _ _ _ _ _ (by decide)

/-! ## C6 — the Globo one-to-many expansion -/

/-- C6: a non-empty channel entry that mentions GLOBO (case-insensitive,
anywhere in the trimmed entry), contains a comma, and contains at least
one two-letter uppercase region code, is expanded into exactly one
`Globo <code>` output per distinct region code, in first-seen order, with
nothing else emitted for that entry. -/
theorem c6_globo_expansion (channel : List Char) (h0 : channel ≠ [])
    (h1 : containsSub "GLOBO".data ((jsTrim channel).map jsToUpper) = true)
    (h2 : containsSub ",".data (jsTrim channel) = true)
    (h3 : estados (jsTrim channel) ≠ []) :
    processChannel channel =
      (dedupFirst (estados (jsTrim channel))).map (fun e => "Globo ".data ++ e) := by
  unfold processChannel
  rw [if_neg h0]
  unfold processEntry
  rw [if_pos ⟨h1, h2, h3⟩]

/-- Witness for C6 at the spec's example entry. -/
theorem c6_globo_expansion_witness :
    processChannel "GLOBO SP, MS, BA SP, MS, BA".data =
      ["Globo SP".data, "Globo MS".data, "Globo BA".data] :=
  (c6_globo_expansion _ (by decide) (by decide) (by decide) (by decide)).trans (by decide)

/-! ## C1 — the time comparison of the Team/Time Matcher -/

/-- C1 counterexample: under the claim's reading (leading hour
components within 1), a fixture at 21h30 time-matches a candidate at
21h00, but the code's comparison — `parseInt` after deleting the first
`h`, so 2130 versus 2100 — rejects that pair. -/
theorem c1_time_match_counterexample :
    claimTimeMatch "21h30".data "21h00".data = true ∧
    matchHora "21h00".data "21h30".data = false := by decide

/-- C1 amended: the time comparison succeeds exactly when the
whitespace-stripped lower-cased strings are identical, or both strings,
after deleting the first `h` of the normalized form, `parseInt` to
numbers at distance at most 1 (so whole minutes participate in the
difference, not just the leading hour components). -/
theorem c1_time_match_amended (a b : List Char) :
    matchHora a b = true ↔
      normalizarHora a = normalizarHora b ∨
      ∃ x y : Int,
        jsParseInt (replaceFirst "h".data [] (normalizarHora a)) = some x ∧
        jsParseInt (replaceFirst "h".data [] (normalizarHora b)) = some y ∧
        (x - y).natAbs ≤ 1 := by
  unfold matchHora
  rcases hx : jsParseInt (replaceFirst "h".data [] (normalizarHora a)) with _ | x <;>
    rcases hy : jsParseInt (replaceFirst "h".data [] (normalizarHora b)) with _ | y <;>
    simp [hx, hy]

/-! ## C9 — abbreviation derivation of the converter -/

/-- C9 counterexample: the converter's abbreviation of `Grêmio` is
`GRÊ` (spaces removed, upper-cased, diacritics kept), not the `GRE` the
claim's diacritic-stripping scheme produces. -/
theorem c9_sigla_counterexample :
    (converterAPIParaMatch fixtureSantosGremio "10-10-2026".data).map (fun j => j.times) =
      some ["SAN".data, "GRÊ".data] ∧
    claimSigla "Grêmio".data = "GRE".data ∧
    sigla "Grêmio".data ≠ claimSigla "Grêmio".data := by decide

/-- C9 amended: for every authoritative record the converter accepts,
the abbreviation pair is the first three UTF-16 code units of each
team's name with whitespace removed, upper-cased — diacritics are kept,
not stripped. -/
theorem c9_sigla_amended (fx : FixtureData) (dia : List Char) (jogo : Match)
    (h : converterAPIParaMatch fx dia = some jogo) :
    ∃ hn an,
      (fx.teams.getD ⟨none, none⟩).home.bind (fun t => t.name) = some hn ∧
      (fx.teams.getD ⟨none, none⟩).away.bind (fun t => t.name) = some an ∧
      jogo.times = [sigla hn, sigla an] := by
  simp only [converterAPIParaMatch] at h
  by_cases ht : jsStrTruthy ((fx.teams.getD ⟨none, none⟩).home.bind fun t => t.name) = true ∧
      jsStrTruthy ((fx.teams.getD ⟨none, none⟩).away.bind fun t => t.name) = true
  · rw [if_neg (not_not_intro ht)] at h
    rcases hd : (fx.fixture.getD ⟨none, none⟩).date with _ | p
    · rw [hd] at h
      exact absurd h (by simp)
    · rw [hd] at h
      dsimp only at h
      rcases hp : parseDataHoraBR (formatDataBR p) (horaBRStr p) with e | d
      · rw [hp] at h
        exact absurd h (by simp)
      · rw [hp] at h
        have hjogo := (Option.some.inj h).symm
        rcases hh : (fx.teams.getD ⟨none, none⟩).home.bind (fun t => t.name) with _ | hn
        · rw [hh] at ht
          exact absurd ht.1 (by simp [jsStrTruthy])
        · rcases ha : (fx.teams.getD ⟨none, none⟩).away.bind (fun t => t.name) with _ | an
          · rw [ha] at ht
            exact absurd ht.2 (by simp [jsStrTruthy])
          · refine ⟨hn, an, rfl, rfl, ?_⟩
            rw [hjogo]
            simp [hh, ha]
  · rw [if_pos ht] at h
    exact absurd h (by simp)

/-- Witness for C9 at the Santos × Grêmio record. -/
theorem c9_sigla_amended_witness :
    ∃ hn an,
      (fixtureSantosGremio.teams.getD ⟨none, none⟩).home.bind (fun t => t.name) = some hn ∧
      (fixtureSantosGremio.teams.getD ⟨none, none⟩).away.bind (fun t => t.name) = some an ∧
      ({ jogoSantosGremio with canais := [] } : Match).times = [sigla hn, sigla an] :=
  c9_sigla_amended fixtureSantosGremio "10-10-2026".data _ (by decide)

/-! ## C8 — team-name normalization in matching -/

/-- C8 counterexample: a UOL-pool record rendering both teams exactly as
the fixture does (so that under the claim's shared normalization both
sides agree, and containment trivially holds) contributes no channels,
because the UOL side of the matcher skips the alias table that turns
`Paris Saint Germain` into `PSG`; rendering the candidate as `PSG`
does match. -/
theorem c8_normalization_counterexample :
    claimNormalizeName (recPSGFull.nomeTimes.getD 0 []) =
      claimNormalizeName (jogoPSG.nomeTimes.getD 0 []) ∧
    claimNormalizeName (recPSGFull.nomeTimes.getD 1 []) =
      claimNormalizeName (jogoPSG.nomeTimes.getD 1 []) ∧
    matchHora recPSGFull.hora jogoPSG.hora = true ∧
    buscarCanaisParaJogo jogoPSG [recPSGFull] [] = [] ∧
    buscarCanaisParaJogo jogoPSG [recPSGAlias] [] = ["SporTV".data] := by decide

/-- C8 amended: the fixture's names are normalized with
`normalizeTimeName` (aliases, then diacritic stripping) and lower-cased;
a Futebol na TV candidate's names get the same treatment, but a UOL
candidate's names are only lower-cased and diacritic-stripped (no alias
table).  Matching holds when either normalized name contains the other,
independently for the home and the away side (no swapped sides), and
the time comparison must also succeed. -/
theorem c8_normalization_amended (homeN awayN horaJogo : List Char) (rec : Match)
    (hlen : 2 ≤ rec.nomeTimes.length)
    (hu0 : toLowerS (rec.nomeTimes.getD 0 []) ≠ [])
    (hu1 : toLowerS (rec.nomeTimes.getD 1 []) ≠ [])
    (hf0 : toLowerS (normalizeTimeName (rec.nomeTimes.getD 0 [])) ≠ [])
    (hf1 : toLowerS (normalizeTimeName (rec.nomeTimes.getD 1 [])) ≠ []) :
    (uolRecordMatch homeN awayN horaJogo rec =
      ((containsSub homeN (removeAcentos (toLowerS (rec.nomeTimes.getD 0 []))) ||
        containsSub (removeAcentos (toLowerS (rec.nomeTimes.getD 0 []))) homeN) &&
       (containsSub awayN (removeAcentos (toLowerS (rec.nomeTimes.getD 1 []))) ||
        containsSub (removeAcentos (toLowerS (rec.nomeTimes.getD 1 []))) awayN) &&
       matchHora rec.hora horaJogo)) ∧
    (ftvRecordMatch homeN awayN horaJogo rec =
      ((containsSub homeN (removeAcentos (toLowerS (normalizeTimeName (rec.nomeTimes.getD 0 [])))) ||
        containsSub (removeAcentos (toLowerS (normalizeTimeName (rec.nomeTimes.getD 0 [])))) homeN) &&
       (containsSub awayN (removeAcentos (toLowerS (normalizeTimeName (rec.nomeTimes.getD 1 [])))) ||
        containsSub (removeAcentos (toLowerS (normalizeTimeName (rec.nomeTimes.getD 1 [])))) awayN) &&
       matchHora rec.hora horaJogo)) := by
  constructor
  · unfold uolRecordMatch
    rw [if_neg (by omega)]
    rw [if_neg (by simp only [not_or]; exact ⟨hu0, hu1⟩)]
  · unfold ftvRecordMatch
    rw [if_neg (by omega)]
    rw [if_neg (by simp only [not_or]; exact ⟨hf0, hf1⟩)]

/-- Witness for C8 at the alias-rendered PSG record. -/
theorem c8_normalization_amended_witness :
    uolRecordMatch "psg".data "santos".data "21h00".data recPSGAlias = true := by
  have h := (c8_normalization_amended "psg".data "santos".data "21h00".data recPSGAlias
    (by decide) (by decide) (by decide) (by decide) (by decide)).1
  rw [h]
  decide

/-! ## C3 — broadcast presence is the admission criterion -/

theorem mem_ordenarPorData {j : Match} {l : List Match} :
    j ∈ ordenarPorData l ↔ j ∈ l := by
  unfold ordenarPorData
  exact (List.mergeSort_perm l _).mem_iff

theorem mem_montarJogos {fixtures : List FixtureData} {dia : List Char}
    {uol ftv : List Match} {f : FixtureData} {jogo : Match} (hf : f ∈ fixtures)
    (hc : converterAPIParaMatch f dia = some jogo)
    (hne : filtrarPremiere (buscarCanaisParaJogo jogo uol ftv) ≠ []) :
    { jogo with canais := filtrarPremiere (buscarCanaisParaJogo jogo uol ftv) } ∈
      montarJogos fixtures dia uol ftv := by
  unfold montarJogos
  rw [List.mem_filterMap]
  refine ⟨f, hf, ?_⟩
  rw [hc]
  dsimp only
  rw [if_neg hne]

theorem canais_ne_nil_of_mem_montarJogos {fixtures : List FixtureData} {dia : List Char}
    {uol ftv : List Match} {j : Match} (h : j ∈ montarJogos fixtures dia uol ftv) :
    j.canais ≠ [] := by
  unfold montarJogos at h
  rw [List.mem_filterMap] at h
  obtain ⟨f, _, he⟩ := h
  rcases hc : converterAPIParaMatch f dia with _ | jogo
  · rw [hc] at he
    simp at he
  · rw [hc] at he
    dsimp only at he
    by_cases hz : filtrarPremiere (buscarCanaisParaJogo jogo uol ftv) = []
    · rw [if_pos hz] at he
      simp at he
    · rw [if_neg hz] at he
      rw [← Option.some.inj he]
      simpa using hz

/-- C3: when no cached result short-circuits the run and the
authoritative fetch succeeds, (a) every fixture in the returned result
has a non-empty channel list, (b) the returned result is exactly what
was cached under the run's date key, and (c) every same-date, in-scope
fixture whose converted record has a non-empty reconciled channel set
(after the Premiere post-filter) appears in the returned result. -/
theorem c3_admission_criterion (dia : Option (List Char)) (hoje : List Char)
    (cache : Cache) (disableCache : Bool) (fixtures : List FixtureData)
    (uolRes ftvRes : Except Unit (List Match))
    (hmiss : cacheLookup cache (diaFormatadoOf dia hoje) = none ∨ disableCache = true) :
    (∀ j ∈ (getJogosRun dia hoje cache disableCache (.ok fixtures) uolRes ftvRes).1,
      j.canais ≠ []) ∧
    cacheLookup (getJogosRun dia hoje cache disableCache (.ok fixtures) uolRes ftvRes).2
        (diaFormatadoOf dia hoje) =
      some (getJogosRun dia hoje cache disableCache (.ok fixtures) uolRes ftvRes).1 ∧
    (∀ f ∈ fixtures, aconteceNaData f (diaFormatadoOf dia hoje) = true →
      deveIncluirJogo f = true →
      ∀ jogo, converterAPIParaMatch f (diaFormatadoOf dia hoje) = some jogo →
        filtrarPremiere (buscarCanaisParaJogo jogo (poolOf uolRes) (poolOf ftvRes)) ≠ [] →
        { jogo with canais :=
            filtrarPremiere (buscarCanaisParaJogo jogo (poolOf uolRes) (poolOf ftvRes)) } ∈
          (getJogosRun dia hoje cache disableCache (.ok fixtures) uolRes ftvRes).1) := by
  have hrun : getJogosRun dia hoje cache disableCache (.ok fixtures) uolRes ftvRes =
      (if fixtures = [] then ([], cacheSet cache (diaFormatadoOf dia hoje) [])
       else if (fixtures.filter
            (fun f => aconteceNaData f (diaFormatadoOf dia hoje))).filter deveIncluirJogo = []
       then ([], cacheSet cache (diaFormatadoOf dia hoje) [])
       else
         (ordenarPorData (montarJogos
            ((fixtures.filter (fun f => aconteceNaData f (diaFormatadoOf dia hoje))).filter
              deveIncluirJogo) (diaFormatadoOf dia hoje) (poolOf uolRes) (poolOf ftvRes)),
          cacheSet cache (diaFormatadoOf dia hoje)
            (ordenarPorData (montarJogos
              ((fixtures.filter (fun f => aconteceNaData f (diaFormatadoOf dia hoje))).filter
                deveIncluirJogo) (diaFormatadoOf dia hoje) (poolOf uolRes) (poolOf ftvRes))))) := by
    simp only [getJogosRun]
    rcases hmiss with h | h
    · rw [h]
    · rw [h]
      cases cacheLookup cache (diaFormatadoOf dia hoje) <;> rfl
  rw [hrun]
  by_cases hfe : fixtures = []
  · subst hfe
    rw [if_pos rfl]
    refine ⟨by simp, by simpa using cacheLookup_cacheSet_self _ _ _, by simp⟩
  · rw [if_neg hfe]
    by_cases hffe : (fixtures.filter
        (fun f => aconteceNaData f (diaFormatadoOf dia hoje))).filter deveIncluirJogo = []
    · rw [if_pos hffe]
      refine ⟨by simp, by simpa using cacheLookup_cacheSet_self _ _ _, ?_⟩
      intro f hf ha hd jogo _ _
      have : f ∈ (fixtures.filter
          (fun f => aconteceNaData f (diaFormatadoOf dia hoje))).filter deveIncluirJogo := by
        rw [List.mem_filter]
        exact ⟨List.mem_filter.mpr ⟨hf, ha⟩, hd⟩
      rw [hffe] at this
      simp at this
    · rw [if_neg hffe]
      refine ⟨?_, by simpa using cacheLookup_cacheSet_self _ _ _, ?_⟩
      · intro j hj
        exact canais_ne_nil_of_mem_montarJogos (mem_ordenarPorData.mp hj)
      · intro f hf ha hd jogo hc hne
        have hmem : f ∈ (fixtures.filter
            (fun f => aconteceNaData f (diaFormatadoOf dia hoje))).filter deveIncluirJogo := by
          rw [List.mem_filter]
          exact ⟨List.mem_filter.mpr ⟨hf, ha⟩, hd⟩
        exact mem_ordenarPorData.mpr (mem_montarJogos hmem hc hne)

/-- Witness for C3: one in-scope same-date fixture with one reconciled
channel appears in the final result. -/
theorem c3_admission_criterion_witness :
    jogoSantosGremio ∈ (getJogosRun (some "10-10-2026".data) "09-10-2026".data [] false
      (.ok [fixtureSantosGremio]) (.ok [recSantosGremio]) (.ok [])).1 := by
  have h := (c3_admission_criterion (some "10-10-2026".data) "09-10-2026".data [] false
    [fixtureSantosGremio] (.ok [recSantosGremio]) (.ok []) (Or.inl rfl)).2.2
  have h2 := h fixtureSantosGremio (List.mem_singleton.mpr rfl) (by decide) (by decide)
    ({ jogoSantosGremio with canais := [] }) (by decide) (by decide)
  have he : ({ { jogoSantosGremio with canais := [] } with
      canais := filtrarPremiere (buscarCanaisParaJogo { jogoSantosGremio with canais := [] }
        (poolOf (.ok [recSantosGremio])) (poolOf (.ok []))) } : Match) = jogoSantosGremio := by
    decide
  rwa [he] at h2

/-! ## C7 — idempotence of the Channel Normalizer: string infrastructure -/

theorem containsSub_cons_eq (n : List Char) (c : Char) (t : List Char) :
    containsSub n (c :: t) = (n.isPrefixOf (c :: t) || containsSub n t) := by
  cases hp : n.isPrefixOf (c :: t) with
  | true =>
    rw [Bool.true_or]
    unfold containsSub
    rw [if_pos hp]
  | false =>
    rw [Bool.false_or]
    conv_lhs => unfold containsSub
    rw [if_neg (by simp [hp])]

theorem containsSub_cons_false {n : List Char} {c : Char} {t : List Char}
    (h1 : n.isPrefixOf (c :: t) = false) (h2 : containsSub n t = false) :
    containsSub n (c :: t) = false := by
  rw [containsSub_cons_eq, h1, h2]
  rfl

theorem isPrefixOf_false_of_length_lt {n hay : List Char}
    (h : hay.length < n.length) : n.isPrefixOf hay = false := by
  by_contra hne
  have hp : n.isPrefixOf hay = true := by revert hne; cases n.isPrefixOf hay <;> simp
  have := (List.isPrefixOf_iff_prefix.mp hp).length_le
  omega

theorem containsSub_of_length_lt {n hay : List Char}
    (h : hay.length < n.length) : containsSub n hay = false := by
  induction hay with
  | nil =>
    unfold containsSub
    rw [isPrefixOf_false_of_length_lt (by simpa using h)]
    rfl
  | cons c t ih =>
    exact containsSub_cons_false (isPrefixOf_false_of_length_lt h)
      (ih (by simp at h ⊢; omega))

theorem containsSub_singleton_eq_any (x : Char) (l : List Char) :
    containsSub [x] l = l.any (fun c => x == c) := by
  induction l with
  | nil => rfl
  | cons c t ih =>
    rw [containsSub_cons_eq, ih]
    have : [x].isPrefixOf (c :: t) = (x == c) := by
      simp [List.isPrefixOf]
    rw [this, List.any_cons]

theorem dropWhile_head_not {p : Char → Bool} {l : List Char} {a : Char}
    (h : (l.dropWhile p).head? = some a) : p a = false := by
  induction l with
  | nil => simp [List.dropWhile] at h
  | cons c t ih =>
    by_cases hc : p c = true
    · rw [List.dropWhile_cons_of_pos hc] at h
      exact ih h
    · rw [List.dropWhile_cons_of_neg (by simp [hc])] at h
      simp only [List.head?_cons, Option.some.injEq] at h
      subst h
      simpa using hc

theorem getLast?_of_suffix_ne_nil {s x : List Char} (h : s <:+ x) (hs : s ≠ []) :
    s.getLast? = x.getLast? := by
  obtain ⟨u, rfl⟩ := h
  rw [List.getLast?_append]
  cases hg : s.getLast? with
  | none => exact absurd (List.getLast?_eq_none_iff.mp hg) hs
  | some a => rfl

theorem jsTrim_head_not_ws {l : List Char} {c : Char}
    (h : (jsTrim l).head? = some c) : jsWs c = false := by
  unfold jsTrim at h
  rw [List.head?_reverse] at h
  have hne : ((l.dropWhile jsWs).reverse.dropWhile jsWs) ≠ [] := by
    intro he
    rw [he] at h
    simp at h
  rw [getLast?_of_suffix_ne_nil (List.dropWhile_suffix _) hne,
      List.getLast?_reverse] at h
  exact dropWhile_head_not h

theorem jsTrim_getLast_not_ws {l : List Char} {c : Char}
    (h : (jsTrim l).getLast? = some c) : jsWs c = false := by
  unfold jsTrim at h
  rw [List.getLast?_reverse] at h
  exact dropWhile_head_not h

theorem jsTrim_idem (l : List Char) : jsTrim (jsTrim l) = jsTrim l :=
  jsTrim_eq_self (fun _ hc => jsTrim_head_not_ws hc) (fun _ hc => jsTrim_getLast_not_ws hc)

theorem mem_dedupFirstAux {α : Type} [DecidableEq α] {x : α} :
    ∀ {seen l : List α}, x ∈ dedupFirstAux seen l ↔ x ∈ l ∧ x ∉ seen := by
  intro seen l
  induction l generalizing seen with
  | nil => simp [dedupFirstAux]
  | cons a t ih =>
    by_cases ha : a ∈ seen
    · rw [dedupFirstAux, if_pos ha, ih]
      constructor
      · rintro ⟨hx, hn⟩
        exact ⟨List.mem_cons_of_mem _ hx, hn⟩
      · rintro ⟨hx, hn⟩
        rcases List.mem_cons.mp hx with rfl | hx
        · exact absurd ha hn
        · exact ⟨hx, hn⟩
    · rw [dedupFirstAux, if_neg ha]
      constructor
      · intro hx
        rcases List.mem_cons.mp hx with rfl | hx
        · exact ⟨List.mem_cons_self _ _, ha⟩
        · obtain ⟨h1, h2⟩ := ih.mp hx
          refine ⟨List.mem_cons_of_mem _ h1, fun hs => h2 (List.mem_cons_of_mem _ hs)⟩
      · rintro ⟨hx, hn⟩
        rcases List.mem_cons.mp hx with rfl | hx
        · exact List.mem_cons_self _ _
        · by_cases hxa : x = a
          · subst hxa
            exact List.mem_cons_self _ _
          · exact List.mem_cons_of_mem _ (ih.mpr ⟨hx, by simp [hxa, hn]⟩)

theorem mem_dedupFirst {α : Type} [DecidableEq α] {x : α} {l : List α} :
    x ∈ dedupFirst l ↔ x ∈ l := by
  unfold dedupFirst
  rw [mem_dedupFirstAux]
  simp

theorem nodup_dedupFirstAux {α : Type} [DecidableEq α] :
    ∀ (seen l : List α), (dedupFirstAux seen l).Nodup := by
  intro seen l
  induction l generalizing seen with
  | nil => simp [dedupFirstAux]
  | cons a t ih =>
    by_cases ha : a ∈ seen
    · rw [dedupFirstAux, if_pos ha]
      exact ih seen
    · rw [dedupFirstAux, if_neg ha]
      refine List.nodup_cons.mpr ⟨?_, ih (a :: seen)⟩
      intro hmem
      exact (mem_dedupFirstAux.mp hmem).2 (List.mem_cons_self _ _)

theorem dedupFirstAux_eq_self {α : Type} [DecidableEq α] :
    ∀ {seen l : List α}, l.Nodup → (∀ x ∈ l, x ∉ seen) → dedupFirstAux seen l = l := by
  intro seen l
  induction l generalizing seen with
  | nil => intro _ _; rfl
  | cons a t ih =>
    intro hnd hdisj
    rw [dedupFirstAux, if_neg (hdisj a (List.mem_cons_self _ _))]
    congr 1
    refine ih (List.nodup_cons.mp hnd).2 ?_
    intro x hx hmem
    rcases List.mem_cons.mp hmem with rfl | hmem
    · exact (List.nodup_cons.mp hnd).1 hx
    · exact hdisj x (List.mem_cons_of_mem _ hx) hmem

theorem dedupFirst_idem {α : Type} [DecidableEq α] (l : List α) :
    dedupFirst (dedupFirst l) = dedupFirst l :=
  dedupFirstAux_eq_self (nodup_dedupFirstAux _ _) (fun x _ hmem => by simp at hmem)

theorem flatMap_id_of_singleton {α : Type} (f : α → List α) :
    ∀ (m : List α), (∀ o ∈ m, f o = [o]) → m.flatMap f = m := by
  intro m
  induction m with
  | nil => intro _; rfl
  | cons a t ih =>
    intro h
    rw [List.flatMap_cons, h a (List.mem_cons_self _ _),
        ih (fun o ho => h o (List.mem_cons_of_mem _ ho))]
    rfl

theorem estadosScan_congr_prev {p q : Char} (h : isWordChar p = isWordChar q)
    (l : List Char) : estadosScan (some p) l = estadosScan (some q) l := by
  cases l with
  | nil => rfl
  | cons a l' =>
    cases l' with
    | nil => rfl
    | cons b t => simp only [estadosScan, h]

theorem estadosScan_nil_eq (prev : Option Char) : estadosScan prev [] = [] := rfl

theorem estadosScan_single (prev : Option Char) (x : Char) : estadosScan prev [x] = [] := rfl

theorem estadosScan_unfold (prev : Option Char) (a b : Char) (t : List Char) :
    estadosScan prev (a :: b :: t) =
      (if (isUpperAZ a && isUpperAZ b &&
            (match prev with | none => true | some p => !isWordChar p) &&
            (match t with | [] => true | c :: _ => !isWordChar c)) = true then
        [a, b] :: estadosScan (some b) t
      else estadosScan (some a) (b :: t)) := rfl

theorem estadosScan_skip_word (prev : Option Char) (a b c : Char) (t : List Char)
    (h : isWordChar c = true) :
    estadosScan prev (a :: b :: c :: t) = estadosScan (some a) (b :: c :: t) := by
  rw [estadosScan_unfold]
  apply if_neg
  intro hc
  simp only [Bool.and_eq_true] at hc
  have h2 := hc.2
  simp [h] at h2

theorem estadosScan_skip_lower (prev : Option Char) (a b : Char) (t : List Char)
    (h : isUpperAZ b = false) :
    estadosScan prev (a :: b :: t) = estadosScan (some a) (b :: t) := by
  rw [estadosScan_unfold]
  apply if_neg
  intro hc
  simp only [Bool.and_eq_true] at hc
  have h2 := hc.1.1.2
  simp [h] at h2

theorem estadosScan_skip_prev (p a b : Char) (t : List Char)
    (h : isWordChar p = true) :
    estadosScan (some p) (a :: b :: t) = estadosScan (some a) (b :: t) := by
  rw [estadosScan_unfold]
  apply if_neg
  intro hc
  simp only [Bool.and_eq_true] at hc
  have h2 := hc.1.2
  simp [h] at h2

theorem estadosScan_prem_head (prev : Option Char) (b : List Char) :
    estadosScan prev ("PREMIERE".data ++ b) = estadosScan prev ("Premiere".data ++ b) := by
  cases b with
  | nil =>
    show estadosScan prev ['P', 'R', 'E', 'M', 'I', 'E', 'R', 'E'] =
      estadosScan prev ['P', 'r', 'e', 'm', 'i', 'e', 'r', 'e']
    simp +decide only [estadosScan_skip_word, estadosScan_skip_prev,
      estadosScan_skip_lower, estadosScan_single]
  | cons c b' =>
    show estadosScan prev
        ('P' :: 'R' :: 'E' :: 'M' :: 'I' :: 'E' :: 'R' :: 'E' :: c :: b') =
      estadosScan prev ('P' :: 'r' :: 'e' :: 'm' :: 'i' :: 'e' :: 'r' :: 'e' :: c :: b')
    simp +decide only [estadosScan_skip_word, estadosScan_skip_prev,
      estadosScan_skip_lower, estadosScan_single]
    exact estadosScan_congr_prev (by decide) (c :: b')

theorem estadosScan_replace (a : List Char) (prev : Option Char) (b : List Char) :
    estadosScan prev (a ++ "PREMIERE".data ++ b) =
      estadosScan prev (a ++ "Premiere".data ++ b) := by
  have key : ∀ (n : Nat) (a : List Char), a.length ≤ n → ∀ (prev : Option Char) (b : List Char),
      estadosScan prev (a ++ "PREMIERE".data ++ b) =
        estadosScan prev (a ++ "Premiere".data ++ b) := by
    intro n
    induction n with
    | zero =>
      intro a ha prev b
      have hae : a = [] := List.eq_nil_of_length_eq_zero (Nat.le_zero.mp ha)
      subst hae
      simpa using estadosScan_prem_head prev b
    | succ n ih =>
      intro a ha prev b
      match a with
      | [] => simpa using estadosScan_prem_head prev b
      | [c] =>
        show estadosScan prev
            (c :: ('P' :: 'R' :: 'E' :: 'M' :: 'I' :: 'E' :: 'R' :: 'E' :: b)) =
          estadosScan prev (c :: ('P' :: 'r' :: 'e' :: 'm' :: 'i' :: 'e' :: 'r' :: 'e' :: b))
        rw [estadosScan_skip_word prev c 'P' 'R' _ (by decide),
            estadosScan_skip_word prev c 'P' 'r' _ (by decide)]
        exact estadosScan_prem_head (some c) b
      | c :: d :: a'' =>
        have hcond : (match (a'' ++ "PREMIERE".data ++ b : List Char) with
              | [] => true
              | e :: _ => !isWordChar e) =
            (match (a'' ++ "Premiere".data ++ b : List Char) with
              | [] => true
              | e :: _ => !isWordChar e) := by
          cases a'' with
          | nil => rfl
          | cons e a''' => rfl
        show estadosScan prev (c :: d :: (a'' ++ "PREMIERE".data ++ b)) =
          estadosScan prev (c :: d :: (a'' ++ "Premiere".data ++ b))
        simp only [estadosScan]
        rw [hcond]
        have hlen : a''.length ≤ n := by
          simp only [List.length_cons] at ha
          omega
        have hlen' : (d :: a'').length ≤ n := by
          simp only [List.length_cons] at ha ⊢
          omega
        by_cases hc : (isUpperAZ c && isUpperAZ d &&
            (match prev with | none => true | some p => !isWordChar p) &&
            (match (a'' ++ "Premiere".data ++ b : List Char) with
              | [] => true
              | e :: _ => !isWordChar e)) = true
        · rw [if_pos hc, if_pos hc]
          congr 1
          exact ih a'' hlen (some d) b
        · rw [if_neg hc, if_neg hc]
          exact ih (d :: a'') hlen' (some c) b
  exact key a.length a le_rfl prev b

theorem mem_estadosScan (prev : Option Char) (l : List Char) (s : List Char)
    (hs : s ∈ estadosScan prev l) :
    ∃ x y, s = [x, y] ∧ isUpperAZ x = true ∧ isUpperAZ y = true := by
  have key : ∀ (n : Nat) (l : List Char), l.length ≤ n → ∀ (prev : Option Char) (s : List Char),
      s ∈ estadosScan prev l →
      ∃ x y, s = [x, y] ∧ isUpperAZ x = true ∧ isUpperAZ y = true := by
    intro n
    induction n with
    | zero =>
      intro l hl prev s hs
      have : l = [] := List.eq_nil_of_length_eq_zero (Nat.le_zero.mp hl)
      subst this
      simp [estadosScan] at hs
    | succ n ih =>
      intro l hl prev s hs
      match l with
      | [] => simp [estadosScan] at hs
      | [x] => simp [estadosScan] at hs
      | a :: b :: t =>
        rw [estadosScan_unfold] at hs
        split at hs
        next hcond =>
          simp only [Bool.and_eq_true] at hcond
          rcases List.mem_cons.mp hs with rfl | hs
          · exact ⟨a, b, rfl, hcond.1.1.1, hcond.1.1.2⟩
          · refine ih t ?_ (some b) s hs
            simp only [List.length_cons] at hl
            omega
        next hcond =>
          refine ih (b :: t) ?_ (some a) s hs
          simp only [List.length_cons] at hl ⊢
          omega
  exact key l.length l le_rfl prev s hs

theorem replaceFirst_cons (n r : List Char) (c : Char) (rest : List Char) :
    replaceFirst n r (c :: rest) =
      (if n.isPrefixOf (c :: rest) = true then r ++ (c :: rest).drop n.length
       else c :: replaceFirst n r rest) := rfl

theorem countSub_cons (n : List Char) (c : Char) (rest : List Char) :
    countSub n (c :: rest) =
      (if n.isPrefixOf (c :: rest) = true then 1 else 0) + countSub n rest := rfl

theorem containsSub_nil {n : List Char} (hn : n ≠ []) : containsSub n [] = false := by
  have hp : n.isPrefixOf [] = false := by
    cases n with
    | nil => exact absurd rfl hn
    | cons c m => rfl
  show (if n.isPrefixOf [] = true then true else false) = false
  rw [hp]
  rfl

theorem countSub_eq_zero_iff {n : List Char} (hn : n ≠ []) (s : List Char) :
    countSub n s = 0 ↔ containsSub n s = false := by
  induction s with
  | nil =>
    simp [countSub, containsSub_nil hn]
  | cons c rest ih =>
    rw [countSub_cons, containsSub_cons_eq]
    cases hp : n.isPrefixOf (c :: rest) with
    | true => simp
    | false => simp [ih]

theorem containsSub_drop {n l : List Char} (h : containsSub n l = false) :
    ∀ k, containsSub n (l.drop k) = false := by
  induction l with
  | nil => intro k; simpa using h
  | cons c t ih =>
    intro k
    cases k with
    | zero => simpa using h
    | succ k =>
      rw [List.drop_succ_cons]
      apply ih ?_ k
      rw [containsSub_cons_eq] at h
      exact (Bool.or_eq_false_iff.mp h).2

theorem replaceFirst_id_of_not_contains {n r s : List Char}
    (h : containsSub n s = false) : replaceFirst n r s = s := by
  induction s with
  | nil => rfl
  | cons c t ih =>
    rw [containsSub_cons_eq] at h
    obtain ⟨h1, h2⟩ := Bool.or_eq_false_iff.mp h
    rw [replaceFirst_cons, if_neg (by simp [h1]), ih h2]

theorem replaceFirst_decomp {n : List Char} (r : List Char) (hn : n ≠ []) :
    ∀ s, containsSub n s = true →
      ∃ a b, s = a ++ n ++ b ∧ replaceFirst n r s = a ++ r ++ b := by
  intro s
  induction s with
  | nil =>
    intro h
    rw [containsSub_nil hn] at h
    exact absurd h (by simp)
  | cons c t ih =>
    intro h
    by_cases hp : n.isPrefixOf (c :: t) = true
    · refine ⟨[], (c :: t).drop n.length, ?_, ?_⟩
      · obtain ⟨u, hu⟩ := List.isPrefixOf_iff_prefix.mp hp
        simp only [List.nil_append]
        rw [← hu, List.drop_left]
      · rw [replaceFirst_cons, if_pos hp]
        simp only [List.nil_append]
    · have h' : containsSub n t = true := by
        rw [containsSub_cons_eq] at h
        simpa [hp] using h
      obtain ⟨a, b, hab, hrf⟩ := ih h'
      refine ⟨c :: a, b, by simp [hab], ?_⟩
      rw [replaceFirst_cons, if_neg hp, hrf]
      simp

theorem prem_isPrefixOf_transfer {a b : List Char} (ha : a ≠ [])
    (h : "PREMIERE".data.isPrefixOf (a ++ "Premiere".data ++ b) = true) :
    "PREMIERE".data.isPrefixOf (a ++ "PREMIERE".data ++ b) = true := by
  rw [List.isPrefixOf_iff_prefix] at h ⊢
  rw [List.prefix_iff_eq_take] at h ⊢
  have hlp : ("PREMIERE".data).length = 8 := by decide
  rw [hlp] at h ⊢
  by_cases hk : 8 ≤ a.length
  · rw [List.append_assoc, List.take_append_eq_append_take] at h ⊢
    have h0 : 8 - a.length = 0 := by omega
    rw [h0, List.take_zero, List.append_nil] at h ⊢
    exact h
  · have h1 : 1 ≤ a.length := List.length_pos.mpr ha
    rw [List.append_assoc, List.take_append_eq_append_take,
        List.take_of_length_le (by omega), List.take_append_eq_append_take] at h
    have hz : 8 - a.length - ("Premiere".data).length = 0 := by
      have : ("Premiere".data).length = 8 := by decide
      omega
    rw [hz, List.take_zero, List.append_nil] at h
    have hdrop : List.drop a.length "PREMIERE".data =
        List.take (8 - a.length) "Premiere".data := by
      conv_lhs => rw [h]
      rw [List.drop_left]
    obtain ⟨m, hm⟩ : ∃ m, a.length = m := ⟨_, rfl⟩
    rw [hm] at hdrop h1 hk
    have hub : m < 8 := by omega
    interval_cases m <;> exact absurd hdrop (by decide)

theorem containsSub_prem_append (z : List Char) :
    containsSub "PREMIERE".data ("Premiere".data ++ z) =
      containsSub "PREMIERE".data z := by
  show containsSub "PREMIERE".data
      ('P' :: 'r' :: 'e' :: 'm' :: 'i' :: 'e' :: 'r' :: 'e' :: z) =
    containsSub "PREMIERE".data z
  simp +decide [containsSub_cons_eq, List.isPrefixOf]

theorem contains_replaceFirst_premiere {t : List Char}
    (hcnt : countSub "PREMIERE".data t ≤ 1) :
    containsSub "PREMIERE".data (replaceFirst "PREMIERE".data "Premiere".data t) = false := by
  induction t with
  | nil =>
    have hr : replaceFirst "PREMIERE".data "Premiere".data [] = [] := rfl
    rw [hr]
    exact containsSub_nil (by decide)
  | cons c rest ih =>
    by_cases hp : "PREMIERE".data.isPrefixOf (c :: rest) = true
    · rw [replaceFirst_cons, if_pos hp]
      have hdrop8 : (c :: rest).drop ("PREMIERE".data).length = rest.drop 7 := by
        show (c :: rest).drop 8 = rest.drop 7
        rw [List.drop_succ_cons]
      rw [hdrop8, containsSub_prem_append]
      have hcz : countSub "PREMIERE".data rest = 0 := by
        rw [countSub_cons, if_pos hp] at hcnt
        omega
      exact containsSub_drop ((countSub_eq_zero_iff (by decide) rest).mp hcz) 7
    · rw [replaceFirst_cons, if_neg hp]
      have hcnt' : countSub "PREMIERE".data rest ≤ 1 := by
        rw [countSub_cons, if_neg hp] at hcnt
        omega
      have ihc := ih hcnt'
      rw [containsSub_cons_eq, ihc, Bool.or_false]
      simp only [Bool.not_eq_true] at hp
      by_cases hcr : containsSub "PREMIERE".data rest = true
      · obtain ⟨a, b, hab, hrf⟩ :=
          replaceFirst_decomp "Premiere".data (by decide) rest hcr
        rw [hrf]
        by_contra hcontra
        have hpre : "PREMIERE".data.isPrefixOf
            ((c :: a) ++ "Premiere".data ++ b) = true := by
          revert hcontra
          cases hvv : "PREMIERE".data.isPrefixOf (c :: a ++ "Premiere".data ++ b) with
          | false => intro hh; exact absurd hvv hh
          | true => intro _; simpa using hvv
        have h2 := prem_isPrefixOf_transfer (a := c :: a) (by simp) hpre
        have hshape : (c :: a) ++ "PREMIERE".data ++ b = c :: rest := by
          rw [hab]
          simp
        rw [hshape] at h2
        rw [h2] at hp
        exact absurd hp (by simp)
      · have hreq : replaceFirst "PREMIERE".data "Premiere".data rest = rest :=
          replaceFirst_id_of_not_contains (by
            revert hcr
            cases containsSub "PREMIERE".data rest <;> simp)
        rw [hreq]
        exact hp

theorem upperAZ_not_ws {c : Char} (h : isUpperAZ c = true) : jsWs c = false := by
  by_contra hne
  have hw : jsWs c = true := by revert hne; cases jsWs c <;> simp
  unfold jsWs at hw
  simp only [Bool.or_eq_true, beq_iff_eq] at hw
  rcases hw with ((((((hh | hh) | hh) | hh) | hh) | hh) | hh) <;> subst hh <;>
    exact absurd h (by decide)

theorem comma_ne_upper {c : Char} (h : isUpperAZ c = true) : (',' == c) = false := by
  by_contra hne
  have hb : (',' == c) = true := by revert hne; cases (',' == c) <;> simp
  have : c = ',' := (beq_iff_eq.mp hb).symm
  subst this
  exact absurd h (by decide)

theorem globoOut_stable {x y : Char} (hx : isUpperAZ x = true) (hy : isUpperAZ y = true) :
    processChannel ("Globo ".data ++ [x, y]) = ["Globo ".data ++ [x, y]] := by
  have hne : ("Globo ".data ++ [x, y] : List Char) ≠ [] := by simp
  have htrim : jsTrim ("Globo ".data ++ [x, y]) = "Globo ".data ++ [x, y] := by
    apply jsTrim_eq_self
    · intro c hc
      have hcg : c = 'G' := by
        have : ("Globo ".data ++ [x, y] : List Char).head? = some 'G' := rfl
        rw [this] at hc
        exact (Option.some.inj hc).symm
      subst hcg
      decide
    · intro c hc
      have hconc : ("Globo ".data ++ [x, y] : List Char) = ("Globo ".data ++ [x]) ++ [y] := by
        simp
      rw [hconc, List.getLast?_concat] at hc
      have hcy : c = y := (Option.some.inj hc).symm
      subst hcy
      exact upperAZ_not_ws hy
  have hU : ("Globo ".data ++ [x, y]).map jsToUpper =
      "GLOBO ".data ++ [jsToUpper x, jsToUpper y] := by
    rw [List.map_append]
    rfl
  have hlen8 : (("Globo ".data ++ [x, y]).map jsToUpper).length = 8 := by
    simp
  have hcomma : containsSub ",".data ("Globo ".data ++ [x, y]) = false := by
    have hsing : (",".data : List Char) = [','] := rfl
    rw [hsing, containsSub_singleton_eq_any]
    simp only [List.any_append, List.any_cons, List.any_nil, Bool.or_false]
    simp +decide [comma_ne_upper hx, comma_ne_upper hy]
  have h1 : ¬(containsSub "GLOBO".data (("Globo ".data ++ [x, y]).map jsToUpper) = true ∧
      containsSub ",".data ("Globo ".data ++ [x, y]) = true ∧
      estados ("Globo ".data ++ [x, y]) ≠ []) := by
    rintro ⟨-, hcm, -⟩
    rw [hcomma] at hcm
    exact absurd hcm (by simp)
  have h2 : ("Globo ".data ++ [x, y]).map jsToUpper ≠ "PREMIERE FC".data := by
    intro hh
    rw [hh] at hlen8
    exact absurd hlen8 (by decide)
  have h3 : ("Globo ".data ++ [x, y]).map jsToUpper ≠ "CAZÉ TV".data := by
    intro hh
    rw [hh] at hlen8
    exact absurd hlen8 (by decide)
  have h4 : ("Globo ".data ++ [x, y]).map jsToUpper ≠ "RECORD".data := by
    intro hh
    rw [hh] at hlen8
    exact absurd hlen8 (by decide)
  have h5 : containsSub "DISNEY+ PREMIUM".data (("Globo ".data ++ [x, y]).map jsToUpper) =
      false := by
    apply containsSub_of_length_lt
    simp
  have h6 : containsSub "DISNEY+".data (("Globo ".data ++ [x, y]).map jsToUpper) = false := by
    rw [hU]
    show containsSub "DISNEY+".data
      ('G' :: 'L' :: 'O' :: 'B' :: 'O' :: ' ' :: jsToUpper x :: jsToUpper y :: []) = false
    refine containsSub_cons_false (by simp +decide [List.isPrefixOf]) ?_
    refine containsSub_cons_false (by simp +decide [List.isPrefixOf]) ?_
    apply containsSub_of_length_lt
    simp
  have h7 : containsSub "PREMIERE".data (("Globo ".data ++ [x, y]).map jsToUpper) = false := by
    rw [hU]
    show containsSub "PREMIERE".data
      ('G' :: 'L' :: 'O' :: 'B' :: 'O' :: ' ' :: jsToUpper x :: jsToUpper y :: []) = false
    refine containsSub_cons_false (by simp +decide [List.isPrefixOf]) ?_
    apply containsSub_of_length_lt
    simp
  have h8 : containsSub "SPORTV".data (("Globo ".data ++ [x, y]).map jsToUpper) = false := by
    rw [hU]
    show containsSub "SPORTV".data
      ('G' :: 'L' :: 'O' :: 'B' :: 'O' :: ' ' :: jsToUpper x :: jsToUpper y :: []) = false
    refine containsSub_cons_false (by simp +decide [List.isPrefixOf]) ?_
    refine containsSub_cons_false (by simp +decide [List.isPrefixOf]) ?_
    refine containsSub_cons_false (by simp +decide [List.isPrefixOf]) ?_
    apply containsSub_of_length_lt
    simp
  have h9 : ("Globo ".data ++ [x, y]).map jsToUpper ≠ "GLOBO".data := by
    intro hh
    rw [hh] at hlen8
    exact absurd hlen8 (by decide)
  unfold processChannel
  rw [if_neg hne, htrim]
  unfold processEntry
  rw [if_neg h1, if_neg h2, if_neg h3, if_neg h4, if_neg (by rw [h5]; simp),
      if_neg (by rw [h6]; simp), if_neg (by rw [h7]; simp), if_neg (by rw [h8]; simp),
      if_neg h9]

theorem rule5_stable {t : List Char} (htr : jsTrim t = t) (hne : t ≠ [])
    (hcnt : countSub "PREMIERE".data t ≤ 1)
    (h1 : ¬(containsSub "GLOBO".data (t.map jsToUpper) = true ∧
            containsSub ",".data t = true ∧ estados t ≠ []))
    (h2 : t.map jsToUpper ≠ "PREMIERE FC".data)
    (h3 : t.map jsToUpper ≠ "CAZÉ TV".data)
    (h4 : t.map jsToUpper ≠ "RECORD".data)
    (h5 : containsSub "DISNEY+ PREMIUM".data (t.map jsToUpper) = false)
    (h6 : containsSub "DISNEY+".data (t.map jsToUpper) = false)
    (h7 : containsSub "PREMIERE".data (t.map jsToUpper) = true) :
    processChannel (replaceFirst "PREMIERE".data "Premiere".data t) =
      [replaceFirst "PREMIERE".data "Premiere".data t] := by
  by_cases hct : containsSub "PREMIERE".data t = true
  · obtain ⟨a, b, hab, hrf⟩ := replaceFirst_decomp "Premiere".data (by decide) t hct
    have hco : containsSub "PREMIERE".data (a ++ "Premiere".data ++ b) = false := by
      rw [← hrf]
      exact contains_replaceFirst_premiere hcnt
    subst hab
    rw [hrf]
    have hUo : (a ++ "Premiere".data ++ b).map jsToUpper =
        (a ++ "PREMIERE".data ++ b).map jsToUpper := by
      have e1 : "Premiere".data.map jsToUpper = "PREMIERE".data := by decide
      have e2 : "PREMIERE".data.map jsToUpper = "PREMIERE".data := by decide
      rw [List.map_append, List.map_append, List.map_append, List.map_append, e1, e2]
    have hcomma : containsSub ",".data (a ++ "Premiere".data ++ b) =
        containsSub ",".data (a ++ "PREMIERE".data ++ b) := by
      have hsing : (",".data : List Char) = [','] := rfl
      rw [hsing, containsSub_singleton_eq_any, containsSub_singleton_eq_any]
      simp only [List.any_append]
      have e1 : "Premiere".data.any (fun c => ',' == c) = false := by decide
      have e2 : "PREMIERE".data.any (fun c => ',' == c) = false := by decide
      rw [e1, e2]
    have hest : estados (a ++ "Premiere".data ++ b) =
        estados (a ++ "PREMIERE".data ++ b) :=
      (estadosScan_replace a none b).symm
    have hone : (a ++ "Premiere".data ++ b : List Char) ≠ [] := by simp
    have hotr : jsTrim (a ++ "Premiere".data ++ b) = a ++ "Premiere".data ++ b := by
      apply jsTrim_eq_self
      · intro c hc
        cases a with
        | nil =>
          have : c = 'P' := by
            have hh : (([] : List Char) ++ "Premiere".data ++ b).head? = some 'P' := rfl
            rw [hh] at hc
            exact (Option.some.inj hc).symm
          subst this
          decide
        | cons a₀ a' =>
          apply jsTrim_head_not_ws (l := (a₀ :: a') ++ "PREMIERE".data ++ b)
          rw [htr]
          have e1 : ((a₀ :: a') ++ "PREMIERE".data ++ b).head? = some a₀ := rfl
          have e2 : ((a₀ :: a') ++ "Premiere".data ++ b).head? = some a₀ := rfl
          rw [e1]
          rw [e2] at hc
          exact hc
      · intro c hc
        by_cases hb : b = []
        · subst hb
          rw [List.append_nil] at hc
          rw [List.getLast?_append_of_ne_nil a (by decide)] at hc
          have : c = 'e' := by
            have hh : ("Premiere".data : List Char).getLast? = some 'e' := by decide
            rw [hh] at hc
            exact (Option.some.inj hc).symm
          subst this
          decide
        · apply jsTrim_getLast_not_ws (l := a ++ "PREMIERE".data ++ b)
          rw [htr]
          rw [List.getLast?_append_of_ne_nil (a ++ "PREMIERE".data) hb]
          rw [List.getLast?_append_of_ne_nil (a ++ "Premiere".data) hb] at hc
          exact hc
    unfold processChannel
    rw [if_neg hone, hotr]
    unfold processEntry
    rw [if_neg (by rw [hUo, hcomma, hest]; exact h1),
        if_neg (by rw [hUo]; exact h2),
        if_neg (by rw [hUo]; exact h3),
        if_neg (by rw [hUo]; exact h4),
        if_neg (by rw [hUo, h5]; simp),
        if_neg (by rw [hUo, h6]; simp),
        if_pos (by rw [hUo]; exact h7)]
    rw [replaceFirst_id_of_not_contains hco]
  · have hcf : containsSub "PREMIERE".data t = false := by
      revert hct
      cases containsSub "PREMIERE".data t <;> simp
    have hid : replaceFirst "PREMIERE".data "Premiere".data t = t :=
      replaceFirst_id_of_not_contains hcf
    rw [hid]
    unfold processChannel
    rw [if_neg hne, htr]
    unfold processEntry
    rw [if_neg h1, if_neg h2, if_neg h3, if_neg h4, if_neg (by rw [h5]; simp),
        if_neg (by rw [h6]; simp), if_pos h7, hid]

theorem processEntry_stable {t : List Char} (htr : jsTrim t = t) (hne : t ≠ [])
    (hcnt : countSub "PREMIERE".data t ≤ 1) :
    ∀ o ∈ processEntry t, processChannel o = [o] := by
  intro o ho
  unfold processEntry at ho
  by_cases h1 : (containsSub "GLOBO".data (t.map jsToUpper) = true ∧
      containsSub ",".data t = true ∧ estados t ≠ [])
  · rw [if_pos h1] at ho
    obtain ⟨e, he, rfl⟩ := List.mem_map.mp ho
    obtain ⟨x, y, rfl, hx, hy⟩ := mem_estadosScan none t e (mem_dedupFirst.mp he)
    exact globoOut_stable hx hy
  · rw [if_neg h1] at ho
    by_cases h2 : t.map jsToUpper = "PREMIERE FC".data
    · rw [if_pos h2] at ho
      have : o = "Premiere".data := by simpa using ho
      subst this
      decide
    · rw [if_neg h2] at ho
      by_cases h3 : t.map jsToUpper = "CAZÉ TV".data
      · rw [if_pos h3] at ho
        have : o = "CazéTV".data := by simpa using ho
        subst this
        decide
      · rw [if_neg h3] at ho
        by_cases h4 : t.map jsToUpper = "RECORD".data
        · rw [if_pos h4] at ho
          have : o = "Record".data := by simpa using ho
          subst this
          decide
        · rw [if_neg h4] at ho
          by_cases h5 : containsSub "DISNEY+ PREMIUM".data (t.map jsToUpper) = true
          · rw [if_pos h5] at ho
            have : o = "Disney+".data := by simpa using ho
            subst this
            decide
          · rw [if_neg h5] at ho
            by_cases h6 : containsSub "DISNEY+".data (t.map jsToUpper) = true
            · rw [if_pos h6] at ho
              have : o = "Disney+".data := by simpa using ho
              subst this
              decide
            · rw [if_neg h6] at ho
              by_cases h7 : containsSub "PREMIERE".data (t.map jsToUpper) = true
              · rw [if_pos h7] at ho
                have : o = replaceFirst "PREMIERE".data "Premiere".data t := by
                  simpa using ho
                subst this
                exact rule5_stable htr hne hcnt h1 h2 h3 h4
                  (by revert h5; cases containsSub "DISNEY+ PREMIUM".data (t.map jsToUpper) <;> simp)
                  (by revert h6; cases containsSub "DISNEY+".data (t.map jsToUpper) <;> simp)
                  h7
              · rw [if_neg h7] at ho
                by_cases h8 : containsSub "SPORTV".data (t.map jsToUpper) = true
                · rw [if_pos h8] at ho
                  have : o = "SporTV".data := by simpa using ho
                  subst this
                  decide
                · rw [if_neg h8] at ho
                  by_cases h9 : t.map jsToUpper = "GLOBO".data
                  · rw [if_pos h9] at ho
                    have : o = "Globo".data := by simpa using ho
                    subst this
                    decide
                  · rw [if_neg h9] at ho
                    have : o = t := by simpa using ho
                    subst this
                    unfold processChannel
                    rw [if_neg hne, htr]
                    unfold processEntry
                    rw [if_neg h1, if_neg h2, if_neg h3, if_neg h4, if_neg h5,
                        if_neg h6, if_neg h7, if_neg h8, if_neg h9]

/-! ## C7 — the claim theorems -/

/-- C7 counterexample: the Channel Normalizer is not idempotent — an
entry containing the literal substring PREMIERE twice is rewritten once
per application, and a whitespace-only entry normalizes to the empty
string, which the next application silently drops. -/
theorem c7_idempotence_counterexample :
    prepareChannelName (prepareChannelName ["PREMIERE PREMIERE".data]) ≠
      prepareChannelName ["PREMIERE PREMIERE".data] ∧
    prepareChannelName (prepareChannelName [" ".data]) ≠
      prepareChannelName [" ".data] := by decide

/-- C7 amended: the Channel Normalizer is idempotent on every channel
list in which each non-empty entry still has something left after
trimming and the trimmed entry contains at most one occurrence of the
literal substring PREMIERE. -/
theorem c7_idempotence_amended (channels : List (List Char))
    (h1 : ∀ c ∈ channels, c ≠ [] → jsTrim c ≠ [])
    (h2 : ∀ c ∈ channels, countSub "PREMIERE".data (jsTrim c) ≤ 1) :
    prepareChannelName (prepareChannelName channels) = prepareChannelName channels := by
  have hstab : ∀ o ∈ channels.flatMap processChannel, processChannel o = [o] := by
    intro o ho
    obtain ⟨c, hc, hoc⟩ := List.mem_flatMap.mp ho
    by_cases hce : c = []
    · subst hce
      simp [processChannel] at hoc
    · have heq : processChannel c = processEntry (jsTrim c) := by
        unfold processChannel
        rw [if_neg hce]
      rw [heq] at hoc
      exact processEntry_stable (jsTrim_idem c) (h1 c hc hce) (h2 c hc) o hoc
  show prepareChannelName (dedupFirst (channels.flatMap processChannel)) = _
  unfold prepareChannelName
  rw [flatMap_id_of_singleton _ _ (fun o ho => hstab o (mem_dedupFirst.mp ho))]
  rw [dedupFirst_idem]

/-- Witness for C7 on a list exercising the Globo expansion, a rewrite
rule and a single-PREMIERE entry. -/
theorem c7_idempotence_amended_witness :
    prepareChannelName (prepareChannelName
      ["GLOBO SP, MS".data, "PREMIERE FC".data, "sportv 2".data]) =
    prepareChannelName ["GLOBO SP, MS".data, "PREMIERE FC".data, "sportv 2".data] :=
  c7_idempotence_amended _ (by decide) (by decide)

end UolApi
